import Mathlib

/-!
# Verification of the gemctl-go snapshot subsystem

A shallow embedding of the snapshot capture / diff / restore subsystem of
gemctl-go (file internal/client/snapshot.go), together with theorems settling
the specification claims about it.

Modelling conventions:

* Go strings are Lean `String`s; `strings.ToLower` is modelled on the ASCII
  range by `lowerString`, and `sort.Strings` by insertion sort over a
  byte-wise comparison (`strRel`), which agrees with Go's sort on ASCII data.
* Go maps are modelled as association lists with unique keys (Go maps cannot
  hold duplicate keys).  A *nil* map or slice is distinguished from an empty
  one with `Option`, because the code distinguishes them
  (`applyFeatureSnapshot`, `cloneStringMap`, and `json:",omitempty"` on every
  marshalled map and slice field).  Where the code ranges over a map, the
  unspecified Go iteration order is an explicit parameter of the embedding (a
  permutation of the map's key list); where the code sorts the keys first, no
  parameter is needed.
* `interface\x7b\x7d` values held in the open common-config map are modelled by
  `IfaceVal` (JSON string / bool / null atoms); `fmt.Sprintf` rendering of
  such a value is `IfaceVal.render`, and the `x.(string)` type assertion is
  `IfaceVal.asString`.  Numeric and nested values are outside the model.
* Effectful code (RestoreEngineSnapshot and its helpers) is embedded as pure
  functions over an oracle `Env` describing what the external API would
  answer; every external call the code would issue is recorded in an explicit
  trace of `ApiCall`s, and write calls consult the oracle for success.
* `Agent` lists are lists of values: the `nil`-pointer entries that the Go
  slices could in principle hold never occur in this program (cloneAgents
  drops them, the API decoder does not produce them); `agentSnapshotKey`
  keeps its nil case via an `Option Agent` argument.
-/

/-! ## String utilities -/

/-- ASCII lower-casing of one character, modelling the effect of Go's
`unicode.ToLower` on the ASCII range. -/
def lowerChar (c : Char) : Char :=
  if 'A' ≤ c ∧ c ≤ 'Z' then Char.ofNat (c.toNat + 32) else c

/-- Models `strings.ToLower` (character-wise lower-casing). -/
def lowerString (s : String) : String := ⟨s.data.map lowerChar⟩

/-- Byte-wise (here: character-wise) lexicographic comparison of strings,
modelling the order used by Go's `sort.Strings`. -/
def charListLe : List Char → List Char → Bool
  | [], _ => true
  | _ :: _, [] => false
  | a :: as, b :: bs => if a < b then true else if b < a then false else charListLe as bs

/-- The comparison `strLe` as a boolean on strings. -/
def strLe (a b : String) : Bool := charListLe a.data b.data

/-- The propositional order used to sort string keys. -/
def strRel (a b : String) : Prop := strLe a b = true

instance : DecidableRel strRel := fun _ _ => inferInstanceAs (Decidable (_ = true))

theorem charListLe_total (x y : List Char) : charListLe x y = true ∨ charListLe y x = true := by
  induction x generalizing y with
  | nil => left; rfl
  | cons c cs ih =>
    cases y with
    | nil => right; rfl
    | cons d ds =>
      by_cases h1 : c < d
      · left; simp [charListLe, h1]
      · by_cases h2 : d < c
        · right; simp [charListLe, h1, h2, asymm h2]
        · rcases ih ds with h | h
          · left; simp [charListLe, h1, h2, h]
          · right; simp [charListLe, h1, h2, h]

theorem charListLe_trans {x y z : List Char} (hxy : charListLe x y = true)
    (hyz : charListLe y z = true) : charListLe x z = true := by
  induction x generalizing y z with
  | nil => rfl
  | cons a as ih =>
    cases y with
    | nil => simp [charListLe] at hxy
    | cons b bs =>
      cases z with
      | nil => simp [charListLe] at hyz
      | cons c cs =>
        by_cases hab : a < b
        · by_cases hbc : b < c
          · simp [charListLe, lt_trans hab hbc]
          · by_cases hcb : c < b
            · simp [charListLe, hbc, hcb] at hyz
            · have : b = c := le_antisymm (not_lt.1 hcb) (not_lt.1 hbc)
              subst this
              simp [charListLe, hab]
        · by_cases hba : b < a
          · simp [charListLe, hab, hba] at hxy
          · have : a = b := le_antisymm (not_lt.1 hba) (not_lt.1 hab)
            subst this
            by_cases hbc : a < c
            · simp [charListLe, hbc]
            · by_cases hcb : c < a
              · simp [charListLe, hbc, hcb] at hyz
              · have : a = c := le_antisymm (not_lt.1 hcb) (not_lt.1 hbc)
                subst this
                simp [charListLe, hbc, hcb] at *
                exact ih hxy hyz

theorem charListLe_antisymm {x y : List Char} (hxy : charListLe x y = true)
    (hyx : charListLe y x = true) : x = y := by
  induction x generalizing y with
  | nil =>
    cases y with
    | nil => rfl
    | cons b bs => simp [charListLe] at hyx
  | cons a as ih =>
    cases y with
    | nil => simp [charListLe] at hxy
    | cons b bs =>
      by_cases hab : a < b
      · simp [charListLe, hab, asymm hab] at hyx
      · by_cases hba : b < a
        · simp [charListLe, hab, hba] at hxy
        · have : a = b := le_antisymm (not_lt.1 hba) (not_lt.1 hab)
          subst this
          simp [charListLe, hab] at hxy hyx
          exact congrArg (a :: ·) (ih hxy hyx)

instance : IsTotal String strRel where
  total a b := charListLe_total a.data b.data

instance : IsTrans String strRel where
  trans _ _ _ hab hbc := charListLe_trans hab hbc

instance : IsAntisymm String strRel where
  antisymm a b hab hba := by
    cases a; cases b
    exact congrArg String.mk (charListLe_antisymm hab hba)

/-- Models Go's `sort.Strings`. -/
def sortStrings (l : List String) : List String := List.insertionSort strRel l

/-- Last `/`-separated segment of a resource name; models `extractResourceID`
(`strings.Split(name, "/")` followed by taking the last element). -/
def extractResourceID (resourceName : String) : String :=
  if resourceName = "" then ""
  else ⟨(resourceName.data.reverse.takeWhile (· ≠ '/')).reverse⟩

/-! ## Maps -/

/-- A Go `map[string]string`, as an association list with unique keys. -/
abbrev StrMap := List (String × String)

/-- An `interface\x7b\x7d` value stored in the open common-config map.  The model
covers the JSON atoms the tool round-trips (strings, booleans, null); numeric
and nested values are outside the model. -/
inductive IfaceVal where
  | str (s : String)
  | boolean (b : Bool)
  | null
  deriving DecidableEq, Repr

/-- The rendering `fmt.Sprintf("%v", v)` of a common-config value, as used by
`mapsEqual`. -/
def IfaceVal.render : IfaceVal → String
  | .str s => s
  | .boolean true => "true"
  | .boolean false => "false"
  | .null => "<nil>"

/-- The Go type assertion `v.(string)`. -/
def IfaceVal.asString : IfaceVal → Option String
  | .str s => some s
  | _ => none

/-- A Go `map[string]interface\x7b\x7d`, as an association list with unique keys. -/
abbrev IMap := List (String × IfaceVal)

/-- Key list of a possibly-nil string map. -/
def okeys : Option StrMap → List String
  | none => []
  | some m => m.map (·.1)

/-- Indexing `m[k]` of a possibly-nil Go string map: absent keys (and the nil
map) give the zero value `""`. -/
def ofind (o : Option StrMap) (k : String) : String :=
  match o with
  | none => ""
  | some m => (m.lookup k).getD ""

/-- Key list of a possibly-nil interface map. -/
def ikeys : Option IMap → List String
  | none => []
  | some m => m.map (·.1)

/-- Indexing a possibly-nil Go interface map (`v, ok := m[k]`). -/
def ifind (o : Option IMap) (k : String) : Option IfaceVal :=
  match o with
  | none => none
  | some m => m.lookup k

/-- `len` of a possibly-nil Go interface map. -/
def ilen : Option IMap → Nat
  | none => 0
  | some m => m.length

/-- The entry list of a possibly-nil Go interface map. -/
def ientries : Option IMap → IMap
  | none => []
  | some m => m

/-! ## Data model (snapshot.go lines 17-107) -/

/-- SnapshotMetadata captures contextual information for a snapshot. -/
structure SnapshotMetadata where
  version : String
  originalEngineName : String
  originalEngineID : String
  sourceProjectID : String
  sourceLocation : String
  sourceCollection : String
  takenAt : String
  displayName : String
  description : String
  notes : String
  deriving DecidableEq, Repr

/-- The nested search-tier configuration (type declared in a client file not
part of the source tree; modelled from the spec: tier plus ordered add-on
list, both omitempty).  The add-on slice keeps Go's nil/non-nil distinction
(`none` is a nil slice, `some l` a non-nil slice of length `l.length`). -/
structure SearchEngineConfig where
  searchTier : String
  searchAddOns : Option (List String)
  deriving DecidableEq, Repr

/-- EngineConfigSnapshot represents the engine configuration captured in a
snapshot.  The slice and map fields keep Go's nil/non-nil distinction, which
`json:",omitempty"` observes. -/
structure EngineConfigSnapshot where
  displayName : String
  solutionType : String
  industryVertical : String
  appType : String
  dataStoreIds : Option (List String)
  commonConfig : Option IMap
  features : Option StrMap
  searchConfig : Option SearchEngineConfig
  deriving DecidableEq, Repr

/-- AgentIcon represents the icon associated with an agent. -/
structure AgentIcon where
  uri : String
  content : String
  deriving DecidableEq, Repr

/-- DialogflowAgentDefinition represents Dialogflow linkage details. -/
structure DialogflowAgentDefinition where
  dialogflowAgent : String
  deriving DecidableEq, Repr

/-- An agent registration, with every tagged field of the Go struct in
declaration order: the six fields the differ reads, the two timestamp
strings, and the eight passthrough map/slice fields (connector definition,
additional properties, annotations, labels, environment configurations,
monitoring state, capabilities, metadata).  Map and slice fields keep Go's
nil/non-nil distinction. -/
structure Agent where
  name : String
  displayName : String
  description : String
  icon : Option AgentIcon
  dialogflowAgentDefinition : Option DialogflowAgentDefinition
  reasoningEngine : String
  createTime : String
  updateTime : String
  connectorDefinition : Option IMap
  additionalAgentProperties : Option IMap
  annotations : Option StrMap
  labels : Option StrMap
  environmentConfigurations : Option (List IMap)
  agentMonitoringState : Option IMap
  capabilities : Option (List String)
  metadata : Option IMap
  deriving DecidableEq, Repr

/-- EngineSnapshot bundles metadata, engine configuration, and related
agents.  The agents slice keeps Go's nil/non-nil distinction (`agents,omitempty`
drops both nil and empty slices). -/
structure EngineSnapshot where
  metadata : SnapshotMetadata
  engine : EngineConfigSnapshot
  agents : Option (List Agent)
  deriving DecidableEq, Repr

/-- The value stored in a FieldDiff's old/new slots (`interface\x7b\x7d` in Go):
one of the value shapes diffMetadata/diffEngineConfig actually store there. -/
inductive FieldVal where
  | str (s : String)
  | strs (l : Option (List String))
  | imap (m : Option IMap)
  | search (c : Option SearchEngineConfig)
  deriving DecidableEq, Repr

/-- FieldDiff represents a change in a simple field. -/
structure FieldDiff where
  field : String
  old : FieldVal
  new : FieldVal
  deriving DecidableEq, Repr

/-- FeatureDiff represents a change in a feature flag. -/
structure FeatureDiff where
  feature : String
  old : String
  new : String
  deriving DecidableEq, Repr

/-- AgentDiffKind enumerates agent change types. -/
inductive AgentDiffKind where
  | added
  | removed
  | updated
  deriving DecidableEq, Repr

/-- AgentDiff captures differences for a single agent. -/
structure AgentDiff where
  key : String
  changeType : AgentDiffKind
  old : Option Agent
  new : Option Agent
  deriving DecidableEq, Repr

/-- SnapshotDiff summarizes differences between two snapshots or between a
snapshot and live state. -/
structure SnapshotDiff where
  metadataChanges : List FieldDiff := []
  engineChanges : List FieldDiff := []
  featureChanges : List FeatureDiff := []
  agentChanges : List AgentDiff := []
  deriving DecidableEq, Repr

/-- SnapshotRestoreOptions control how a snapshot is restored. -/
structure SnapshotRestoreOptions where
  targetEngineName : String
  createIfMissing : Bool
  updateExisting : Bool
  dryRun : Bool
  deriving DecidableEq, Repr

/-- SnapshotRestoreResult reports actions taken during restore. -/
structure SnapshotRestoreResult where
  engineName : String
  created : Bool
  enginePatched : Bool
  featureChanges : List FeatureDiff
  agentChanges : List AgentDiff
  deriving DecidableEq, Repr

/-- The live engine configuration record returned by the get-engine call.
Modelled from the spec: the Engine struct itself is declared in a client file
outside the source tree; its fields are fixed by their uses in snapshot.go.
The Engine value is never marshalled by this subsystem and its slice fields
are only compared through the length-based `stringSlicesEqual`, which treats
nil and empty alike, so they are plain lists here. -/
structure Engine where
  name : String
  displayName : String
  solutionType : String
  industryVertical : String
  appType : String
  dataStoreIds : List String
  commonConfig : Option IMap
  features : Option StrMap
  searchEngineConfig : Option SearchEngineConfig
  deriving DecidableEq, Repr

/-! ## Pure helpers (snapshot.go lines 694-798) -/

/-- stringSlicesEqual: length check plus element-wise equality, i.e. list
equality. -/
def stringSlicesEqual (a b : List String) : Bool := a == b

/-- mapsEqual compares two possibly-nil interface maps: equal lengths, and
every entry of `a` present in `b` with the same `fmt.Sprintf` rendering. -/
def mapsEqual (a b : Option IMap) : Bool :=
  ilen a == ilen b &&
    (ientries a).all fun p =>
      match ifind b p.1 with
      | none => false
      | some bv => p.2.render == bv.render

/-- compareSearchConfigs: nil-aware structural equality of search configs. -/
def compareSearchConfigs (a b : Option SearchEngineConfig) : Bool :=
  match a, b with
  | none, none => true
  | none, some _ => false
  | some _, none => false
  | some x, some y => x.searchTier == y.searchTier &&
      stringSlicesEqual (x.searchAddOns.getD []) (y.searchAddOns.getD [])

/-- cloneStringMap: nil stays nil, otherwise a fresh map with the same
entries (a value copy in this pure model). -/
def cloneStringMap : Option StrMap → Option StrMap
  | none => none
  | some m => some m

/-- cloneStringInterfaceMap: nil stays nil, otherwise a fresh top-level copy. -/
def cloneStringInterfaceMap : Option IMap → Option IMap
  | none => none
  | some m => some m

/-- cloneAgents: per-agent struct copy (nil entries are dropped in Go; the
model's lists hold no nil entries, so this is the identity on values).  The
value level cannot see that `copy := *agent` aliases the passthrough
map/slice fields; that is captured by the heap view (`cloneAgentH`) below. -/
def cloneAgents (src : List Agent) : List Agent := src

/-- existingEngineFeatures: an empty (non-nil) map for a missing engine,
otherwise a clone of the live feature map. -/
def existingEngineFeatures : Option Engine → Option StrMap
  | none => some []
  | some e => cloneStringMap e.features

/-- agentSnapshotKey derives the identity key of an agent: the lower-cased
external Dialogflow link when present and non-empty, else the lower-cased
display name when non-empty, else the lower-cased server name; nil gives
the empty string. -/
def agentSnapshotKey : Option Agent → String
  | none => ""
  | some agent =>
    match agent.dialogflowAgentDefinition with
    | some d =>
      if d.dialogflowAgent ≠ "" then lowerString d.dialogflowAgent
      else if agent.displayName ≠ "" then lowerString agent.displayName
      else lowerString agent.name
    | none =>
      if agent.displayName ≠ "" then lowerString agent.displayName
      else lowerString agent.name

/-- The key of a (non-nil) agent value. -/
def agentKey (a : Agent) : String := agentSnapshotKey (some a)

/-! ## Structural differ (snapshot.go lines 530-699) -/

/-- diffMetadata compares displayName, description and notes, in that fixed
order. -/
def diffMetadata (a b : SnapshotMetadata) : List FieldDiff :=
  (if a.displayName ≠ b.displayName then
    [⟨"displayName", .str a.displayName, .str b.displayName⟩] else []) ++
  (if a.description ≠ b.description then
    [⟨"description", .str a.description, .str b.description⟩] else []) ++
  (if a.notes ≠ b.notes then
    [⟨"notes", .str a.notes, .str b.notes⟩] else [])

/-- diffEngineConfig compares the tracked engine fields in a fixed order. -/
def diffEngineConfig (a b : EngineConfigSnapshot) : List FieldDiff :=
  (if a.displayName ≠ b.displayName then
    [⟨"displayName", .str a.displayName, .str b.displayName⟩] else []) ++
  (if a.solutionType ≠ b.solutionType then
    [⟨"solutionType", .str a.solutionType, .str b.solutionType⟩] else []) ++
  (if a.industryVertical ≠ b.industryVertical then
    [⟨"industryVertical", .str a.industryVertical, .str b.industryVertical⟩] else []) ++
  (if a.appType ≠ b.appType then
    [⟨"appType", .str a.appType, .str b.appType⟩] else []) ++
  (if ¬ stringSlicesEqual (a.dataStoreIds.getD []) (b.dataStoreIds.getD []) then
    [⟨"dataStoreIds", .strs a.dataStoreIds, .strs b.dataStoreIds⟩] else []) ++
  (if ¬ mapsEqual a.commonConfig b.commonConfig then
    [⟨"commonConfig", .imap a.commonConfig, .imap b.commonConfig⟩] else []) ++
  (if ¬ compareSearchConfigs a.searchConfig b.searchConfig then
    [⟨"searchConfig", .search a.searchConfig, .search b.searchConfig⟩] else [])

/-- diffFeatures forms the union of the two key sets, sorts it, and emits one
FeatureDiff per key whose values differ (absent keys read as `""`). -/
def diffFeatures (a b : Option StrMap) : List FeatureDiff :=
  let keys := sortStrings ((okeys a ++ okeys b).dedup)
  keys.filterMap fun k =>
    let oldVal := ofind a k
    let newVal := ofind b k
    if oldVal ≠ newVal then some ⟨k, oldVal, newVal⟩ else none

/-- diffAgentsFields computes the per-agent update mask: displayName and
description on any difference; reasoningEngine and the Dialogflow link only
when the desired value is non-empty; icon URI/content as one combined field. -/
def diffAgentsFields (current desired : Agent) : List String × Bool :=
  let m1 := if current.displayName ≠ desired.displayName then ["displayName"] else []
  let m2 := if current.description ≠ desired.description then ["description"] else []
  let m3 :=
    if current.reasoningEngine ≠ desired.reasoningEngine ∧ desired.reasoningEngine ≠ "" then
      ["reasoningEngine"] else []
  let currentDialogflow :=
    match current.dialogflowAgentDefinition with
    | some d => d.dialogflowAgent
    | none => ""
  let desiredDialogflow :=
    match desired.dialogflowAgentDefinition with
    | some d => d.dialogflowAgent
    | none => ""
  let m4 :=
    if currentDialogflow ≠ desiredDialogflow ∧ desiredDialogflow ≠ "" then
      ["dialogflowAgentDefinition.dialogflowAgent"] else []
  let currentIconURI :=
    match current.icon with
    | some i => i.uri
    | none => ""
  let currentIconContent :=
    match current.icon with
    | some i => i.content
    | none => ""
  let desiredIconURI :=
    match desired.icon with
    | some i => i.uri
    | none => ""
  let desiredIconContent :=
    match desired.icon with
    | some i => i.content
    | none => ""
  let m5 :=
    if currentIconURI ≠ desiredIconURI ∨ currentIconContent ≠ desiredIconContent then
      ["icon"] else []
  let mask := m1 ++ m2 ++ m3 ++ m4 ++ m5
  (mask, mask.length > 0)

/-- A Go `map[string]*Agent` keyed by derived agent key. -/
abbrev AgentMap := List (String × Agent)

/-- Insertion into a Go map: overwrite an existing key in place, otherwise
append. -/
def mapInsert (m : AgentMap) (k : String) (v : Agent) : AgentMap :=
  if m.any (fun p => p.1 == k) then
    m.map fun p => if p.1 == k then (k, v) else p
  else m ++ [(k, v)]

/-- Builds the key-to-agent map by inserting every agent of the list under its
derived key, in list order (later entries overwrite earlier ones, as in Go). -/
def buildAgentMap (agents : List Agent) : AgentMap :=
  agents.foldl (fun m ag => mapInsert m (agentKey ag) ag) []

/-- The key list of an agent map. -/
def mapKeys (m : AgentMap) : List String := m.map (·.1)

/-- diffAgents performs set reconciliation by derived key.  `ordD` and `ordC`
are the orders in which Go's `range` happens to yield the keys of the desired
and current maps; theorems constrain them to be permutations of the maps' key
lists.  Keys a valid order can mention are exactly the map keys, so entries
absent from the respective map are skipped. -/
def diffAgents (current desired : List Agent) (ordD ordC : List String) : List AgentDiff :=
  let currentMap := buildAgentMap current
  let desiredMap := buildAgentMap desired
  let upserts := ordD.filterMap fun k =>
    match desiredMap.lookup k with
    | none => none
    | some desiredAgent =>
      match currentMap.lookup k with
      | some existing =>
        if (diffAgentsFields existing desiredAgent).2 then
          some ⟨k, .updated, some existing, some desiredAgent⟩
        else none
      | none => some ⟨k, .added, none, some desiredAgent⟩
  let removals := ordC.filterMap fun k =>
    match currentMap.lookup k with
    | none => none
    | some existing =>
      match desiredMap.lookup k with
      | some _ => none
      | none => some ⟨k, .removed, some existing, none⟩
  upserts ++ removals

/-- DiffSnapshots compares two snapshots.  The two trailing arguments are the
Go map iteration orders used inside diffAgents. -/
def DiffSnapshots (a b : EngineSnapshot) (ordD ordC : List String) : SnapshotDiff where
  metadataChanges := diffMetadata a.metadata b.metadata
  engineChanges := diffEngineConfig a.engine b.engine
  featureChanges := diffFeatures a.engine.features b.engine.features
  agentChanges := diffAgents (a.agents.getD []) (b.agents.getD []) ordD ordC

/-- A SnapshotDiff is empty iff all four change lists are empty. -/
def SnapshotDiff.IsEmpty (d : SnapshotDiff) : Bool :=
  d.metadataChanges.length == 0 &&
  d.engineChanges.length == 0 &&
  d.featureChanges.length == 0 &&
  d.agentChanges.length == 0

/-! ## External API model and reconciler (snapshot.go lines 214-528) -/

/-- The payload assembled by createEngineFromSnapshot (lines 311-336): full
desired configuration, with only the companyName sub-field parsed out of the
common-config map. -/
structure EngineCreatePayload where
  displayName : String
  solutionType : String
  industryVertical : String
  appType : String
  dataStoreIds : Option (List String)
  features : Option StrMap
  searchEngineConfig : Option SearchEngineConfig
  commonCompanyName : Option String
  deriving DecidableEq, Repr

/-- The payload for creating an agent (AgentCreateInput). -/
structure AgentCreateInput where
  displayName : String
  description : String
  icon : Option AgentIcon
  dialogflowAgentDefinition : Option DialogflowAgentDefinition
  reasoningEngine : String
  deriving DecidableEq, Repr

/-- The payload for updating an agent (AgentUpdateInput). -/
structure AgentUpdateInput where
  displayName : String
  description : String
  icon : Option AgentIcon
  dialogflowAgentDefinition : Option DialogflowAgentDefinition
  reasoningEngine : String
  deriving DecidableEq, Repr

/-- One call against the external API.  The first two constructors are reads;
all others are writes. -/
inductive ApiCall where
  | getEngine (name : String)
  | listAgents (engineName : String)
  | createEngine (engineId : String) (payload : EngineCreatePayload)
  | patchEngine (name : String) (updateMask : List String)
  | updateFeatures (engineName : String) (desired : StrMap)
  | createAgent (engineName : String) (input : AgentCreateInput)
  | updateAgent (agentName : String) (updateMask : List String) (input : AgentUpdateInput)
  | deleteAgent (agentName : String)
  deriving DecidableEq, Repr

/-- Whether a call is write-capable (engine create/patch, feature update,
agent create/update/delete). -/
def ApiCall.isWrite : ApiCall → Bool
  | .getEngine _ => false
  | .listAgents _ => false
  | _ => true

/-- Whether a call is the engine patch call. -/
def ApiCall.isEnginePatch : ApiCall → Bool
  | .patchEngine _ _ => true
  | _ => false

/-- Outcome of the target engine lookup. -/
inductive EngineLookup where
  | found (engine : Engine)
  | notFound
  | failed
  deriving Repr

/-- Oracle for the external API: what GetEngineDetails and ListAgents answer
for the target engine, and whether each write call succeeds.  The reconciler
issues each call at most once, so one answer per call suffices. -/
structure Env where
  engineLookup : EngineLookup
  agentsLookup : Option (List Agent)
  writeOk : ApiCall → Bool

/-- The errors RestoreEngineSnapshot and its helpers surface, one constructor
per `fmt.Errorf` site. -/
inductive RestoreErr where
  | snapshotNil
  | targetRequired
  | getTargetFailed
  | notFoundCreateDisabled (name : String)
  | listAgentsFailed
  | engineNotFound (name : String)
  | createEngineFailed
  | patchEngineFailed
  | applyFeaturesFailed
  | agentMissingDialogflow (displayName : String)
  | createAgentFailed (displayName : String)
  | updateAgentFailed (name : String)
  | deleteAgentFailed (name : String)
  deriving DecidableEq, Repr

/-- createEngineFromSnapshot (lines 311-344): assembles the create payload and
issues the create call. -/
def createEngineFromSnapshot (env : Env) (engineName : String) (cfg : EngineConfigSnapshot) :
    Option RestoreErr × List ApiCall :=
  let payload : EngineCreatePayload :=
    { displayName := cfg.displayName
      solutionType := cfg.solutionType
      industryVertical := cfg.industryVertical
      appType := cfg.appType
      dataStoreIds := cfg.dataStoreIds
      features := cloneStringMap cfg.features
      searchEngineConfig := cfg.searchConfig
      commonCompanyName :=
        match (ifind cfg.commonConfig "companyName").bind IfaceVal.asString with
        | some company => if company ≠ "" then some company else none
        | none => none }
  let call := ApiCall.createEngine (extractResourceID engineName) payload
  if env.writeOk call then (none, [call]) else (some .createEngineFailed, [call])

/-- The update mask patchEngineFromSnapshot computes against current live
values (lines 351-389): only fields that actually differ, with the non-empty
guards on displayName, industryVertical and appType. -/
def patchMask (current : Engine) (cfg : EngineConfigSnapshot) : List String :=
  (if cfg.displayName ≠ "" ∧ cfg.displayName ≠ current.displayName then ["displayName"] else []) ++
  (if cfg.industryVertical ≠ "" ∧ cfg.industryVertical ≠ current.industryVertical then
    ["industryVertical"] else []) ++
  (if cfg.appType ≠ "" ∧ cfg.appType ≠ current.appType then ["appType"] else []) ++
  (if ¬ stringSlicesEqual (cfg.dataStoreIds.getD []) current.dataStoreIds then
    ["dataStoreIds"] else []) ++
  (match cfg.searchConfig with
   | none => []
   | some sc =>
     let currentTier :=
       match current.searchEngineConfig with
       | some c => c.searchTier
       | none => ""
     let currentAddOns :=
       match current.searchEngineConfig with
       | some c => c.searchAddOns.getD []
       | none => []
     if sc.searchTier ≠ currentTier ∨
         ¬ stringSlicesEqual (sc.searchAddOns.getD []) currentAddOns then
       ["searchEngineConfig"] else [])

/-- patchEngineFromSnapshot (lines 346-403): computes the update mask and, when
it is non-empty, issues one patch call with it; an empty mask issues nothing. -/
def patchEngineFromSnapshot (env : Env) (engineName : String) (current : Engine)
    (cfg : EngineConfigSnapshot) : Option RestoreErr × List ApiCall :=
  let mask := patchMask current cfg
  if mask.isEmpty then (none, [])
  else
    let call := ApiCall.patchEngine engineName mask
    if env.writeOk call then (none, [call]) else (some .patchEngineFailed, [call])

/-- applyFeatureSnapshot (lines 405-411): a nil desired map is a no-op;
otherwise the full desired map is sent unconditionally. -/
def applyFeatureSnapshot (env : Env) (engineName : String) (desired : Option StrMap) :
    Option RestoreErr × List ApiCall :=
  match desired with
  | none => (none, [])
  | some m =>
    let call := ApiCall.updateFeatures engineName m
    if env.writeOk call then (none, [call]) else (some .applyFeaturesFailed, [call])

/-- createAgentFromSnapshot (lines 468-501): validates the Dialogflow link,
assembles the create input (defaulting the reasoning engine to the engine
name) and issues the create call. -/
def createAgentFromSnapshot (env : Env) (engineName : String) (agent : Agent) :
    Option RestoreErr × List ApiCall :=
  match agent.dialogflowAgentDefinition with
  | some d =>
    if d.dialogflowAgent = "" then (some (.agentMissingDialogflow agent.displayName), [])
    else
      let input : AgentCreateInput :=
        { displayName := agent.displayName
          description := agent.description
          icon := agent.icon
          dialogflowAgentDefinition := some ⟨d.dialogflowAgent⟩
          reasoningEngine :=
            if agent.reasoningEngine ≠ "" then agent.reasoningEngine else engineName }
      let call := ApiCall.createAgent engineName input
      if env.writeOk call then (none, [call]) else (some (.createAgentFailed agent.displayName), [call])
  | none =>
    let input : AgentCreateInput :=
      { displayName := agent.displayName
        description := agent.description
        icon := agent.icon
        dialogflowAgentDefinition := none
        reasoningEngine :=
          if agent.reasoningEngine ≠ "" then agent.reasoningEngine else engineName }
    let call := ApiCall.createAgent engineName input
    if env.writeOk call then (none, [call]) else (some (.createAgentFailed agent.displayName), [call])

/-- updateAgentFromSnapshot (lines 503-528): an empty mask is a no-op,
otherwise one update call carrying the desired fields and the mask. -/
def updateAgentFromSnapshot (env : Env) (existing desired : Agent) (mask : List String) :
    Option RestoreErr × List ApiCall :=
  if mask.isEmpty then (none, [])
  else
    let input : AgentUpdateInput :=
      { displayName := desired.displayName
        description := desired.description
        icon := desired.icon
        dialogflowAgentDefinition :=
          match desired.dialogflowAgentDefinition with
          | some d => some ⟨d.dialogflowAgent⟩
          | none => none
        reasoningEngine := desired.reasoningEngine }
    let call := ApiCall.updateAgent existing.name mask input
    if env.writeOk call then (none, [call]) else (some (.updateAgentFailed existing.name), [call])

/-- The add/update half of syncAgentsWithSnapshot (lines 426-450), iterating
the desired map in the order `ordD`.  On a failure the error and the calls
made so far are returned (the collected changes are discarded, as in Go). -/
def syncUpserts (env : Env) (engineName : String) (currentMap desiredMap : AgentMap) :
    List String → Option RestoreErr × List AgentDiff × List ApiCall
  | [] => (none, [], [])
  | k :: rest =>
    match desiredMap.lookup k with
    | none => syncUpserts env engineName currentMap desiredMap rest
    | some desiredAgent =>
      match currentMap.lookup k with
      | some existing =>
        let (mask, needsUpdate) := diffAgentsFields existing desiredAgent
        if needsUpdate then
          match updateAgentFromSnapshot env existing desiredAgent mask with
          | (some e, calls) => (some e, [], calls)
          | (none, calls) =>
            match syncUpserts env engineName currentMap desiredMap rest with
            | (err, changes, calls2) =>
              (err, ⟨k, .updated, some existing, some desiredAgent⟩ :: changes, calls ++ calls2)
        else syncUpserts env engineName currentMap desiredMap rest
      | none =>
        match createAgentFromSnapshot env engineName desiredAgent with
        | (some e, calls) => (some e, [], calls)
        | (none, calls) =>
          match syncUpserts env engineName currentMap desiredMap rest with
          | (err, changes, calls2) =>
            (err, ⟨k, .added, none, some desiredAgent⟩ :: changes, calls ++ calls2)

/-- The removal half of syncAgentsWithSnapshot (lines 452-463), iterating the
current map in the order `ordC`. -/
def syncRemovals (env : Env) (currentMap desiredMap : AgentMap) :
    List String → Option RestoreErr × List AgentDiff × List ApiCall
  | [] => (none, [], [])
  | k :: rest =>
    match currentMap.lookup k with
    | none => syncRemovals env currentMap desiredMap rest
    | some existing =>
      match desiredMap.lookup k with
      | some _ => syncRemovals env currentMap desiredMap rest
      | none =>
        let call := ApiCall.deleteAgent existing.name
        if env.writeOk call then
          match syncRemovals env currentMap desiredMap rest with
          | (err, changes, calls) =>
            (err, ⟨k, .removed, some existing, none⟩ :: changes, call :: calls)
        else (some (.deleteAgentFailed existing.name), [], [call])

/-- syncAgentsWithSnapshot (lines 413-466): builds the two key maps and runs
the add/update pass then the removal pass, aborting on the first failure. -/
def syncAgentsWithSnapshot (env : Env) (engineName : String) (current desired : List Agent)
    (ordD ordC : List String) : Option RestoreErr × List AgentDiff × List ApiCall :=
  let currentMap := buildAgentMap current
  let desiredMap := buildAgentMap desired
  match syncUpserts env engineName currentMap desiredMap ordD with
  | (some e, _, calls1) => (some e, [], calls1)
  | (none, ch1, calls1) =>
    match syncRemovals env currentMap desiredMap ordC with
    | (some e, _, calls2) => (some e, [], calls1 ++ calls2)
    | (none, ch2, calls2) => (none, ch1 ++ ch2, calls1 ++ calls2)

/-- The schema version tag. -/
def snapshotVersion : String := "v1"

/-- The metadata RestoreEngineSnapshot synthesizes for the live engine
(lines 245-251); unmentioned fields stay at their zero value. -/
def currentMetadataOf (engine : Engine) (now : String) : SnapshotMetadata where
  version := snapshotVersion
  originalEngineName := engine.name
  originalEngineID := extractResourceID engine.name
  sourceProjectID := ""
  sourceLocation := ""
  sourceCollection := ""
  takenAt := now
  displayName := engine.displayName
  description := ""
  notes := ""

/-- The engine-config snapshot RestoreEngineSnapshot synthesizes for the live
engine (lines 252-261). -/
def currentConfigOf (engine : Engine) : EngineConfigSnapshot where
  displayName := engine.displayName
  solutionType := engine.solutionType
  industryVertical := engine.industryVertical
  appType := engine.appType
  dataStoreIds := some engine.dataStoreIds
  commonConfig := cloneStringInterfaceMap engine.commonConfig
  features := cloneStringMap engine.features
  searchConfig := engine.searchEngineConfig

/-- The preview diff of RestoreEngineSnapshot (lines 242-272): against the
synthesized live snapshot when the target exists, otherwise the synthesized
"will be created" diff. -/
def restorePreviewDiff (existing : Option Engine) (existingAgents : List Agent)
    (snapshot : EngineSnapshot) (now : String) (ordD ordC : List String) : SnapshotDiff :=
  match existing with
  | some engine =>
    DiffSnapshots snapshot
      { metadata := currentMetadataOf engine now
        engine := currentConfigOf engine
        agents := some (cloneAgents existingAgents) }
      ordD ordC
  | none =>
    { metadataChanges := []
      engineChanges := [⟨"engine", .str "missing", .str "will be created"⟩]
      featureChanges := diffFeatures (some []) snapshot.engine.features
      agentChanges := diffAgents [] (snapshot.agents.getD []) ordD ordC }

/-- The full outcome of one RestoreEngineSnapshot invocation: the Go triple
(result, diff, error) plus the trace of external calls issued. -/
structure RestoreOut where
  result : Option SnapshotRestoreResult
  diff : SnapshotDiff
  error : Option RestoreErr
  calls : List ApiCall
  deriving Repr

/-- Steps c and d of the apply phase (lines 297-308): the unconditional
feature application, then agent reconciliation, then the result record. -/
def restoreFinish (env : Env) (snap : EngineSnapshot) (opts : SnapshotRestoreOptions)
    (existing : Option Engine) (existingAgents : List Agent) (currentDiff : SnapshotDiff)
    (calls : List ApiCall) (created enginePatched : Bool) (syncOrdD syncOrdC : List String) :
    RestoreOut :=
  match applyFeatureSnapshot env opts.targetEngineName snap.engine.features with
  | (some e, fcalls) => ⟨none, currentDiff, some e, calls ++ fcalls⟩
  | (none, fcalls) =>
    let featureChanges := diffFeatures (existingEngineFeatures existing) snap.engine.features
    match syncAgentsWithSnapshot env opts.targetEngineName existingAgents (snap.agents.getD [])
        syncOrdD syncOrdC with
    | (some e, _, scalls) => ⟨none, currentDiff, some e, calls ++ fcalls ++ scalls⟩
    | (none, agentChanges, scalls) =>
      ⟨some
        { engineName := opts.targetEngineName
          created := created
          enginePatched := enginePatched
          featureChanges := featureChanges
          agentChanges := agentChanges },
       currentDiff, none, calls ++ fcalls ++ scalls⟩

/-- Steps a and b of the apply phase (lines 282-295): engine creation when the
target is missing, or the engine patch when updating is enabled. -/
def restoreApply (env : Env) (snap : EngineSnapshot) (opts : SnapshotRestoreOptions)
    (existing : Option Engine) (existingAgents : List Agent) (currentDiff : SnapshotDiff)
    (calls : List ApiCall) (syncOrdD syncOrdC : List String) : RestoreOut :=
  match existing with
  | none =>
    if ¬ opts.createIfMissing then
      ⟨none, currentDiff, some (.engineNotFound opts.targetEngineName), calls⟩
    else
      match createEngineFromSnapshot env opts.targetEngineName snap.engine with
      | (some e, ccalls) => ⟨none, currentDiff, some e, calls ++ ccalls⟩
      | (none, ccalls) =>
        restoreFinish env snap opts existing existingAgents currentDiff (calls ++ ccalls)
          true false syncOrdD syncOrdC
  | some engine =>
    if opts.updateExisting then
      match patchEngineFromSnapshot env opts.targetEngineName engine snap.engine with
      | (some e, pcalls) => ⟨none, currentDiff, some e, calls ++ pcalls⟩
      | (none, pcalls) =>
        restoreFinish env snap opts existing existingAgents currentDiff (calls ++ pcalls)
          false true syncOrdD syncOrdC
    else
      restoreFinish env snap opts existing existingAgents currentDiff calls
        false false syncOrdD syncOrdC

/-- The preview-then-apply body shared by both lookup outcomes (lines
242-308): compute the preview diff, stop there in dry-run mode, otherwise
apply. -/
def restoreMain (env : Env) (now : String) (snap : EngineSnapshot)
    (opts : SnapshotRestoreOptions) (existing : Option Engine) (existingAgents : List Agent)
    (calls : List ApiCall) (ordD ordC syncOrdD syncOrdC : List String) : RestoreOut :=
  let currentDiff := restorePreviewDiff existing existingAgents snap now ordD ordC
  if opts.dryRun then ⟨none, currentDiff, none, calls⟩
  else restoreApply env snap opts existing existingAgents currentDiff calls syncOrdD syncOrdC

/-- RestoreEngineSnapshot (lines 215-309).  `now` is the capture timestamp the
code would stamp; the four trailing lists are the Go map iteration orders used
by the preview diff and by the agent sync. -/
def RestoreEngineSnapshot (env : Env) (now : String) (snapshot : Option EngineSnapshot)
    (opts : SnapshotRestoreOptions) (ordD ordC syncOrdD syncOrdC : List String) : RestoreOut :=
  match snapshot with
  | none => ⟨none, {}, some .snapshotNil, []⟩
  | some snap =>
    if opts.targetEngineName = "" then ⟨none, {}, some .targetRequired, []⟩
    else
      let getCall := ApiCall.getEngine opts.targetEngineName
      match env.engineLookup with
      | .failed => ⟨none, {}, some .getTargetFailed, [getCall]⟩
      | .notFound =>
        if ¬ opts.createIfMissing then
          ⟨none, {}, some (.notFoundCreateDisabled opts.targetEngineName), [getCall]⟩
        else
          restoreMain env now snap opts none [] [getCall] ordD ordC syncOrdD syncOrdC
      | .found engine =>
        match env.agentsLookup with
        | none =>
          ⟨none, {}, some .listAgentsFailed, [getCall, .listAgents opts.targetEngineName]⟩
        | some agents =>
          restoreMain env now snap opts (some engine) agents
            [getCall, .listAgents opts.targetEngineName] ordD ordC syncOrdD syncOrdC

/-! ## Persisted snapshot document (snapshot.go lines 152-164)

`MarshalJSONBytes` and `LoadEngineSnapshot` are modelled down to the JSON
document tree: `encoding/json` renders struct fields in declaration order
under their tag names, omits `omitempty` fields holding Go zero values
(empty strings, nil pointers, nil or empty maps and slices), and sorts map
keys; indentation and whitespace carry no information, so the byte level is
represented by the tree. -/

/-- A JSON document tree (numbers do not occur in snapshot documents of this
model). -/
inductive Json where
  | str (s : String)
  | boolean (b : Bool)
  | null
  | arr (xs : List Json)
  | obj (fields : List (String × Json))

/-- Sorts the entries of an association list by key, as `encoding/json` does
for Go maps. -/
def keyRel {α : Type} (p q : String × α) : Prop := strRel p.1 q.1

instance {α : Type} : DecidableRel (@keyRel α) :=
  fun p q => inferInstanceAs (Decidable (strLe p.1 q.1 = true))

/-- Sort a map's entries by key for serialization. -/
def sortEntries {α : Type} (m : List (String × α)) : List (String × α) :=
  List.insertionSort keyRel m

/-- Encoding of a common-config value. -/
def IfaceVal.toJson : IfaceVal → Json
  | .str s => .str s
  | .boolean b => .boolean b
  | .null => .null

/-- Decoding of a common-config value from JSON (`interface\x7b\x7d` decoding,
restricted to the atoms of the model). -/
def IfaceVal.fromJson : Json → Option IfaceVal
  | .str s => some (.str s)
  | .boolean b => some (.boolean b)
  | .null => some .null
  | _ => none

/-- A string field without omitempty. -/
def reqStr (name s : String) : List (String × Json) := [(name, .str s)]

/-- A string field with omitempty: omitted when empty. -/
def putStr (name s : String) : List (String × Json) := if s = "" then [] else [(name, .str s)]

/-- A string-slice field with omitempty: nil and empty slices are omitted. -/
def putStrList (name : String) (l : Option (List String)) : List (String × Json) :=
  match l with
  | none => []
  | some xs => if xs.isEmpty then [] else [(name, .arr (xs.map .str))]

/-- A `map[string]string` field with omitempty: nil and empty maps are
omitted; entries are rendered in sorted key order. -/
def putSMap (name : String) (m : Option StrMap) : List (String × Json) :=
  match m with
  | none => []
  | some mm =>
    if mm.isEmpty then []
    else [(name, .obj ((sortEntries mm).map fun p => (p.1, Json.str p.2)))]

/-- A `map[string]interface\x7b\x7d` field with omitempty. -/
def putIMap (name : String) (m : Option IMap) : List (String × Json) :=
  match m with
  | none => []
  | some mm =>
    if mm.isEmpty then []
    else [(name, .obj ((sortEntries mm).map fun p => (p.1, p.2.toJson)))]

/-- A `[]map[string]interface\x7b\x7d` field with omitempty. -/
def putIMapList (name : String) (l : Option (List IMap)) : List (String × Json) :=
  match l with
  | none => []
  | some xs =>
    if xs.isEmpty then []
    else [(name, .arr (xs.map fun m => Json.obj ((sortEntries m).map fun p => (p.1, p.2.toJson))))]

/-- A `*AgentIcon` field with omitempty: nil pointers are omitted; a non-nil
icon is always rendered. -/
def putIcon (o : Option AgentIcon) : List (String × Json) :=
  match o with
  | none => []
  | some i => [("icon", .obj (putStr "uri" i.uri ++ putStr "content" i.content))]

/-- A `*DialogflowAgentDefinition` field with omitempty. -/
def putDdef (o : Option DialogflowAgentDefinition) : List (String × Json) :=
  match o with
  | none => []
  | some d => [("dialogflowAgentDefinition", .obj (putStr "dialogflowAgent" d.dialogflowAgent))]

/-- Serialization of the search config (shape modelled from the spec: tier
plus add-on list, camelCase tags with omitempty, as the struct is declared
outside the source tree). -/
def marshalSearchConfig (c : SearchEngineConfig) : Json :=
  .obj (putStr "searchTier" c.searchTier ++ putStrList "searchAddOns" c.searchAddOns)

/-- A `*SearchEngineConfig` field with omitempty. -/
def putSearch (o : Option SearchEngineConfig) : List (String × Json) :=
  match o with
  | none => []
  | some c => [("searchConfig", marshalSearchConfig c)]

/-- Serialization of SnapshotMetadata (tags of snapshot.go lines 18-29). -/
def marshalMetadata (m : SnapshotMetadata) : Json :=
  .obj (reqStr "version" m.version ++
    reqStr "originalEngineName" m.originalEngineName ++
    reqStr "originalEngineId" m.originalEngineID ++
    reqStr "sourceProjectId" m.sourceProjectID ++
    reqStr "sourceLocation" m.sourceLocation ++
    reqStr "sourceCollection" m.sourceCollection ++
    reqStr "takenAt" m.takenAt ++
    putStr "displayName" m.displayName ++
    putStr "description" m.description ++
    putStr "notes" m.notes)

/-- The rendered field list of EngineConfigSnapshot (tags of snapshot.go
lines 32-41). -/
def engineFields (e : EngineConfigSnapshot) : List (String × Json) :=
  reqStr "displayName" e.displayName ++
    (reqStr "solutionType" e.solutionType ++
      (reqStr "industryVertical" e.industryVertical ++
        (reqStr "appType" e.appType ++
          (putStrList "dataStoreIds" e.dataStoreIds ++
            (putIMap "commonConfig" e.commonConfig ++
              (putSMap "features" e.features ++
                putSearch e.searchConfig))))))

/-- Serialization of EngineConfigSnapshot. -/
def marshalEngineConfig (e : EngineConfigSnapshot) : Json := .obj (engineFields e)

/-- The rendered field list of one agent: all sixteen tagged fields of the Go
Agent struct in declaration order, each under its omitempty rule. -/
def agentFields (a : Agent) : List (String × Json) :=
  putStr "name" a.name ++
    (putStr "displayName" a.displayName ++
      (putStr "description" a.description ++
        (putIcon a.icon ++
          (putDdef a.dialogflowAgentDefinition ++
            (putStr "reasoningEngine" a.reasoningEngine ++
              (putStr "createTime" a.createTime ++
                (putStr "updateTime" a.updateTime ++
                  (putIMap "connectorDefinition" a.connectorDefinition ++
                    (putIMap "additionalAgentProperties" a.additionalAgentProperties ++
                      (putSMap "annotations" a.annotations ++
                        (putSMap "labels" a.labels ++
                          (putIMapList "environmentConfigurations" a.environmentConfigurations ++
                            (putIMap "agentMonitoringState" a.agentMonitoringState ++
                              (putStrList "capabilities" a.capabilities ++
                                putIMap "metadata" a.metadata))))))))))))))

/-- Serialization of one agent (tags of the Agent struct). -/
def marshalAgent (a : Agent) : Json := .obj (agentFields a)

/-- MarshalJSONBytes: the snapshot document json.MarshalIndent produces
(lines 153-155), as a tree. -/
def MarshalJSONBytes (s : EngineSnapshot) : Json :=
  .obj ([("metadata", marshalMetadata s.metadata)] ++
    [("engine", marshalEngineConfig s.engine)] ++
    (match s.agents with
     | none => []
     | some l => if l.isEmpty then [] else [("agents", .arr (l.map marshalAgent))]))

/-- Field lookup in a decoded JSON object. -/
def getField (fields : List (String × Json)) (name : String) : Option Json :=
  fields.lookup name

/-- Decode a string field: absent gives the zero value, non-string fails. -/
def getStr (fields : List (String × Json)) (name : String) : Option String :=
  match getField fields name with
  | none => some ""
  | some (.str s) => some s
  | some _ => none

/-- Decode a string-slice field: absent gives nil. -/
def getStrListOpt (fields : List (String × Json)) (name : String) :
    Option (Option (List String)) :=
  match getField fields name with
  | none => some none
  | some (.arr xs) =>
    (xs.mapM fun j =>
      match j with
      | Json.str s => some s
      | _ => none).map some
  | some _ => none

/-- Decode one object of a `[]map[string]interface\x7b\x7d` array. -/
def decodeIMapEntries : Json → Option IMap
  | .obj fs => fs.mapM (fun (p : String × Json) => (IfaceVal.fromJson p.2).map ((p.1, ·)))
  | _ => none

/-- Decode a `[]map[string]interface\x7b\x7d` field: absent gives nil. -/
def getIMapList (fields : List (String × Json)) (name : String) :
    Option (Option (List IMap)) :=
  match getField fields name with
  | none => some none
  | some (.arr xs) => (xs.mapM decodeIMapEntries).map some
  | some _ => none

/-- Decode a `*AgentIcon` field: absent gives nil, a non-object fails. -/
def getIcon (fields : List (String × Json)) : Option (Option AgentIcon) :=
  match getField fields "icon" with
  | none => some none
  | some (.obj ifs) => do
    let uri ← getStr ifs "uri"
    let content ← getStr ifs "content"
    some (some ⟨uri, content⟩)
  | some _ => none

/-- Decode a `*DialogflowAgentDefinition` field: absent gives nil, a
non-object fails. -/
def getDdef (fields : List (String × Json)) :
    Option (Option DialogflowAgentDefinition) :=
  match getField fields "dialogflowAgentDefinition" with
  | none => some none
  | some (.obj dfs) => do
    let link ← getStr dfs "dialogflowAgent"
    some (some ⟨link⟩)
  | some _ => none

/-- Decode a `map[string]string` field: absent gives nil. -/
def getStrMap (fields : List (String × Json)) (name : String) : Option (Option StrMap) :=
  match getField fields name with
  | none => some none
  | some (.obj fs) =>
    (fs.mapM (fun (p : String × Json) =>
      match p.2 with
      | Json.str s => some (p.1, s)
      | _ => none)).map some
  | some _ => none

/-- Decode a `map[string]interface\x7b\x7d` field: absent gives nil. -/
def getIMap (fields : List (String × Json)) (name : String) : Option (Option IMap) :=
  match getField fields name with
  | none => some none
  | some (.obj fs) =>
    (fs.mapM (fun (p : String × Json) => (IfaceVal.fromJson p.2).map ((p.1, ·)))).map some
  | some _ => none

/-- Decode SnapshotMetadata from its object fields. -/
def decodeMetadata : Json → Option SnapshotMetadata
  | .obj fs => do
    let version ← getStr fs "version"
    let originalEngineName ← getStr fs "originalEngineName"
    let originalEngineID ← getStr fs "originalEngineId"
    let sourceProjectID ← getStr fs "sourceProjectId"
    let sourceLocation ← getStr fs "sourceLocation"
    let sourceCollection ← getStr fs "sourceCollection"
    let takenAt ← getStr fs "takenAt"
    let displayName ← getStr fs "displayName"
    let description ← getStr fs "description"
    let notes ← getStr fs "notes"
    some ⟨version, originalEngineName, originalEngineID, sourceProjectID, sourceLocation,
      sourceCollection, takenAt, displayName, description, notes⟩
  | _ => none

/-- Decode the search config. -/
def decodeSearchConfig : Json → Option SearchEngineConfig
  | .obj fs => do
    let tier ← getStr fs "searchTier"
    let addOns ← getStrListOpt fs "searchAddOns"
    some ⟨tier, addOns⟩
  | _ => none

/-- Decode EngineConfigSnapshot from its object fields. -/
def decodeEngineConfig : Json → Option EngineConfigSnapshot
  | .obj fs => do
    let displayName ← getStr fs "displayName"
    let solutionType ← getStr fs "solutionType"
    let industryVertical ← getStr fs "industryVertical"
    let appType ← getStr fs "appType"
    let dataStoreIds ← getStrListOpt fs "dataStoreIds"
    let commonConfig ← getIMap fs "commonConfig"
    let features ← getStrMap fs "features"
    let searchConfig ←
      match getField fs "searchConfig" with
      | none => some none
      | some j => (decodeSearchConfig j).map some
    some ⟨displayName, solutionType, industryVertical, appType, dataStoreIds, commonConfig,
      features, searchConfig⟩
  | _ => none

/-- Decode one agent: every tagged field, absent fields reading as the Go
zero value. -/
def decodeAgent : Json → Option Agent
  | .obj fs => do
    let name ← getStr fs "name"
    let displayName ← getStr fs "displayName"
    let description ← getStr fs "description"
    let icon ← getIcon fs
    let ddef ← getDdef fs
    let reasoningEngine ← getStr fs "reasoningEngine"
    let createTime ← getStr fs "createTime"
    let updateTime ← getStr fs "updateTime"
    let connectorDefinition ← getIMap fs "connectorDefinition"
    let additionalAgentProperties ← getIMap fs "additionalAgentProperties"
    let annotations ← getStrMap fs "annotations"
    let labels ← getStrMap fs "labels"
    let environmentConfigurations ← getIMapList fs "environmentConfigurations"
    let agentMonitoringState ← getIMap fs "agentMonitoringState"
    let capabilities ← getStrListOpt fs "capabilities"
    let metadata ← getIMap fs "metadata"
    some ⟨name, displayName, description, icon, ddef, reasoningEngine, createTime, updateTime,
      connectorDefinition, additionalAgentProperties, annotations, labels,
      environmentConfigurations, agentMonitoringState, capabilities, metadata⟩
  | _ => none

/-- The zero value of SnapshotMetadata (what a document missing the field
decodes to). -/
def zeroMetadata : SnapshotMetadata := ⟨"", "", "", "", "", "", "", "", "", ""⟩

/-- The zero value of EngineConfigSnapshot. -/
def zeroEngineConfig : EngineConfigSnapshot := ⟨"", "", "", "", none, none, none, none⟩

/-- LoadEngineSnapshot parses a snapshot document (lines 158-164). -/
def LoadEngineSnapshot : Json → Option EngineSnapshot
  | .obj fs => do
    let metadata ←
      match getField fs "metadata" with
      | none => some zeroMetadata
      | some j => decodeMetadata j
    let engine ←
      match getField fs "engine" with
      | none => some zeroEngineConfig
      | some j => decodeEngineConfig j
    let agents ←
      match getField fs "agents" with
      | none => some (none : Option (List Agent))
      | some (.arr xs) => (xs.mapM decodeAgent).map some
      | some _ => none
    some ⟨metadata, engine, agents⟩
  | _ => none

/-! ## Heap view of capture (snapshot.go lines 109-150, 714-754)

The deep-copy claim is about Go heap aliasing, so the capture step is also
embedded with the reference structure explicit: every map, slice and pointer
field is an address into a typed store, `CreateEngineSnapshot`'s clones
allocate fresh cells with copied contents, and plain assignments copy the
address.  Mutating the source after capture is updating a pre-existing cell;
the snapshot's observable value is its rendering through the store. -/

/-- The typed heap: one list of cells per reference type occurring in the
captured data. -/
structure HStore where
  slices : List (List String)
  smaps : List StrMap
  imaps : List IMap
  lmaps : List (List IMap)
  cfgs : List SearchEngineConfig
  icons : List AgentIcon
  ddefs : List DialogflowAgentDefinition
  deriving Repr

/-- The live engine with its reference fields as heap addresses (an `Option`
address is a possibly-nil pointer or map). -/
structure HEngine where
  name : String
  displayName : String
  solutionType : String
  industryVertical : String
  appType : String
  dataStoreIds : Nat
  commonConfig : Option Nat
  features : Option Nat
  searchEngineConfig : Option Nat
  deriving Repr

/-- An agent with its pointer, map and slice fields as heap addresses: the
icon and Dialogflow-definition pointers, and the eight passthrough reference
fields of the Go struct (two string maps, four interface maps, one slice of
interface maps, one string slice). -/
structure HAgent where
  name : String
  displayName : String
  description : String
  icon : Option Nat
  ddef : Option Nat
  reasoningEngine : String
  createTime : String
  updateTime : String
  connectorDefinition : Option Nat
  additionalAgentProperties : Option Nat
  annotations : Option Nat
  labels : Option Nat
  environmentConfigurations : Option Nat
  agentMonitoringState : Option Nat
  capabilities : Option Nat
  metadata : Option Nat
  deriving Repr

/-- The engine section of the snapshot as captured: the struct fields are
values, the reference fields are addresses. -/
structure HConfigSnapshot where
  displayName : String
  solutionType : String
  industryVertical : String
  appType : String
  dataStoreIds : Nat
  commonConfig : Option Nat
  features : Option Nat
  searchConfig : Option Nat
  deriving Repr

/-- Heap reads (out-of-range addresses read as empty cells; capture only
dereferences addresses the engine actually holds). -/
def HStore.readSlice (st : HStore) (a : Nat) : List String := st.slices.getD a []

/-- Read a string-map cell. -/
def HStore.readSMap (st : HStore) (a : Nat) : StrMap := st.smaps.getD a []

/-- Read an interface-map cell. -/
def HStore.readIMap (st : HStore) (a : Nat) : IMap := st.imaps.getD a []

/-- Read a cell holding a slice of interface maps. -/
def HStore.readLMap (st : HStore) (a : Nat) : List IMap := st.lmaps.getD a []

/-- Read a search-config cell. -/
def HStore.readCfg (st : HStore) (a : Nat) : SearchEngineConfig := st.cfgs.getD a ⟨"", none⟩

/-- Read an icon cell. -/
def HStore.readIcon (st : HStore) (a : Nat) : AgentIcon := st.icons.getD a ⟨"", ""⟩

/-- Read a Dialogflow-definition cell. -/
def HStore.readDdef (st : HStore) (a : Nat) : DialogflowAgentDefinition := st.ddefs.getD a ⟨""⟩

/-- Mutation of a slice cell (e.g. `engine.DataStoreIds[0] = ...` on the
source object). -/
def HStore.setSlice (st : HStore) (a : Nat) (v : List String) : HStore :=
  { st with slices := st.slices.set a v }

/-- Mutation of a string-map cell. -/
def HStore.setSMap (st : HStore) (a : Nat) (v : StrMap) : HStore :=
  { st with smaps := st.smaps.set a v }

/-- Mutation of an interface-map cell. -/
def HStore.setIMap (st : HStore) (a : Nat) (v : IMap) : HStore :=
  { st with imaps := st.imaps.set a v }

/-- Mutation of a cell holding a slice of interface maps. -/
def HStore.setLMap (st : HStore) (a : Nat) (v : List IMap) : HStore :=
  { st with lmaps := st.lmaps.set a v }

/-- Mutation of a search-config cell (e.g.
`engine.SearchEngineConfig.SearchTier = ...` on the source object). -/
def HStore.setCfg (st : HStore) (a : Nat) (v : SearchEngineConfig) : HStore :=
  { st with cfgs := st.cfgs.set a v }

/-- Mutation of an icon cell. -/
def HStore.setIcon (st : HStore) (a : Nat) (v : AgentIcon) : HStore :=
  { st with icons := st.icons.set a v }

/-- Mutation of a Dialogflow-definition cell. -/
def HStore.setDdef (st : HStore) (a : Nat) (v : DialogflowAgentDefinition) : HStore :=
  { st with ddefs := st.ddefs.set a v }

/-- The engine-config capture of CreateEngineSnapshot (lines 123-132):
`append([]string\x7b\x7d, ...)` and the two map clones allocate fresh cells
holding copies; the SearchConfig assignment (line 131) copies the address. -/
def captureEngineConfig (st : HStore) (e : HEngine) : HStore × HConfigSnapshot :=
  let dsAddr := st.slices.length
  let st1 := { st with slices := st.slices ++ [st.readSlice e.dataStoreIds] }
  let (st2, ccAddr) :=
    match e.commonConfig with
    | none => (st1, none)
    | some a => ({ st1 with imaps := st1.imaps ++ [st1.readIMap a] }, some st1.imaps.length)
  let (st3, ftAddr) :=
    match e.features with
    | none => (st2, none)
    | some a => ({ st2 with smaps := st2.smaps ++ [st2.readSMap a] }, some st2.smaps.length)
  (st3,
    { displayName := e.displayName
      solutionType := e.solutionType
      industryVertical := e.industryVertical
      appType := e.appType
      dataStoreIds := dsAddr
      commonConfig := ccAddr
      features := ftAddr
      searchConfig := e.searchEngineConfig })

/-- The per-agent clone of cloneAgents (lines 714-732): `copy := *agent` is a
shallow struct copy, so every passthrough map/slice field keeps its address;
only a non-nil icon and Dialogflow definition get fresh cells, via the two
explicit pointer copies. -/
def cloneAgentH (st : HStore) (a : HAgent) : HStore × HAgent :=
  let (st1, iconAddr) :=
    match a.icon with
    | none => (st, none)
    | some i => ({ st with icons := st.icons ++ [st.readIcon i] }, some st.icons.length)
  let (st2, ddefAddr) :=
    match a.ddef with
    | none => (st1, none)
    | some d => ({ st1 with ddefs := st1.ddefs ++ [st1.readDdef d] }, some st1.ddefs.length)
  (st2,
    { name := a.name
      displayName := a.displayName
      description := a.description
      icon := iconAddr
      ddef := ddefAddr
      reasoningEngine := a.reasoningEngine
      createTime := a.createTime
      updateTime := a.updateTime
      connectorDefinition := a.connectorDefinition
      additionalAgentProperties := a.additionalAgentProperties
      annotations := a.annotations
      labels := a.labels
      environmentConfigurations := a.environmentConfigurations
      agentMonitoringState := a.agentMonitoringState
      capabilities := a.capabilities
      metadata := a.metadata })

/-- cloneAgents over a list, threading the store. -/
def cloneAgentsH (st : HStore) : List HAgent → HStore × List HAgent
  | [] => (st, [])
  | a :: rest =>
    let (st1, a1) := cloneAgentH st a
    let (st2, rest1) := cloneAgentsH st1 rest
    (st2, a1 :: rest1)

/-- The capture of CreateEngineSnapshot restricted to its data assembly: the
engine-config snapshot plus the cloned agent list. -/
def createEngineSnapshotH (st : HStore) (e : HEngine) (agents : List HAgent) :
    HStore × HConfigSnapshot × List HAgent :=
  let (st1, cfg) := captureEngineConfig st e
  let (st2, cloned) := cloneAgentsH st1 agents
  (st2, cfg, cloned)

/-- The observable value of a captured engine-config snapshot: its rendering
through the store. -/
def readConfigSnapshot (st : HStore) (c : HConfigSnapshot) : EngineConfigSnapshot where
  displayName := c.displayName
  solutionType := c.solutionType
  industryVertical := c.industryVertical
  appType := c.appType
  dataStoreIds := st.readSlice c.dataStoreIds
  commonConfig := c.commonConfig.map (st.readIMap ·)
  features := c.features.map (st.readSMap ·)
  searchConfig := c.searchConfig.map (st.readCfg ·)

/-- The observable value of a captured agent: its rendering through the
store, including the passthrough fields. -/
def readAgentH (st : HStore) (a : HAgent) : Agent where
  name := a.name
  displayName := a.displayName
  description := a.description
  icon := a.icon.map (st.readIcon ·)
  dialogflowAgentDefinition := a.ddef.map (st.readDdef ·)
  reasoningEngine := a.reasoningEngine
  createTime := a.createTime
  updateTime := a.updateTime
  connectorDefinition := a.connectorDefinition.map (st.readIMap ·)
  additionalAgentProperties := a.additionalAgentProperties.map (st.readIMap ·)
  annotations := a.annotations.map (st.readSMap ·)
  labels := a.labels.map (st.readSMap ·)
  environmentConfigurations := a.environmentConfigurations.map (st.readLMap ·)
  agentMonitoringState := a.agentMonitoringState.map (st.readIMap ·)
  capabilities := a.capabilities.map (st.readSlice ·)
  metadata := a.metadata.map (st.readIMap ·)

/-- The passthrough reference fields of a heap agent, as one tuple of
addresses: the fields `copy := *agent` copies verbatim, leaving the clone
aliased to the source's cells. -/
def HAgent.shared (a : HAgent) :
    Option Nat × Option Nat × Option Nat × Option Nat × Option Nat × Option Nat ×
      Option Nat × Option Nat :=
  (a.connectorDefinition, a.additionalAgentProperties, a.annotations, a.labels,
    a.environmentConfigurations, a.agentMonitoringState, a.capabilities, a.metadata)

/-! ## Association list lemmas -/

theorem assoc_lookup_append {α : Type} (k : String) (l1 l2 : List (String × α)) :
    (l1 ++ l2).lookup k = (l1.lookup k).or (l2.lookup k) := by
  induction l1 with
  | nil => simp [List.lookup]
  | cons p rest ih =>
    cases p with
    | mk a b =>
      by_cases h : k == a
      · simp [List.lookup, h]
      · simp [List.lookup, h, ih]

theorem assoc_lookup_mem {α : Type} {m : List (String × α)} {k : String} {v : α}
    (h : m.lookup k = some v) : (k, v) ∈ m := by
  induction m with
  | nil => simp [List.lookup] at h
  | cons p rest ih =>
    cases p with
    | mk a b =>
      by_cases hk : k == a
      · simp [List.lookup, hk] at h
        subst h
        have : k = a := by simpa using hk
        subst this
        exact List.mem_cons_self _ _
      · simp [List.lookup, hk] at h
        exact List.mem_cons_of_mem _ (ih h)

theorem assoc_mem_keys_of_lookup {α : Type} {m : List (String × α)} {k : String} {v : α}
    (h : m.lookup k = some v) : k ∈ m.map (·.1) :=
  List.mem_map.2 ⟨(k, v), assoc_lookup_mem h, rfl⟩

theorem assoc_lookup_of_mem_keys {α : Type} {m : List (String × α)} {k : String}
    (h : k ∈ m.map (·.1)) : ∃ v, m.lookup k = some v := by
  induction m with
  | nil => simp at h
  | cons p rest ih =>
    cases p with
    | mk a b =>
      by_cases hk : a = k
      · subst hk
        exact ⟨b, by simp [List.lookup]⟩
      · have : k ∈ rest.map (·.1) := by
          simp at h
          rcases h with h | h
          · exact absurd h.symm hk
          · simpa using h
        rcases ih this with ⟨v, hv⟩
        refine ⟨v, ?_⟩
        have : (k == a) = false := by simpa using fun e => hk e.symm
        simp [List.lookup, this, hv]

theorem assoc_lookup_eq_of_mem_nodup {α : Type} {m : List (String × α)} {k : String} {v : α}
    (hnd : (m.map (·.1)).Nodup) (h : (k, v) ∈ m) : m.lookup k = some v := by
  induction m with
  | nil => simp at h
  | cons p rest ih =>
    cases p with
    | mk a b =>
      rcases List.mem_cons.1 h with h | h
      · cases h
        simp [List.lookup]
      · have hcons : (((a, b) :: rest).map (·.1)) = a :: rest.map (·.1) := rfl
        rw [hcons] at hnd
        have ha : a ≠ k := by
          intro e
          subst e
          exact (List.nodup_cons.1 hnd).1 (List.mem_map.2 ⟨(a, v), h, rfl⟩)
        have hk2 : (k == a) = false := by simpa using fun e => ha e.symm
        simp only [List.lookup, hk2]
        exact ih (List.nodup_cons.1 hnd).2 h

/-! ## diffFeatures lemmas -/

theorem sortStrings_eq_of_perm {l1 l2 : List String} (h : l1.Perm l2) :
    sortStrings l1 = sortStrings l2 := by
  apply List.eq_of_perm_of_sorted (r := strRel)
  · exact ((List.perm_insertionSort strRel l1).trans h).trans
      (List.perm_insertionSort strRel l2).symm
  · exact List.sorted_insertionSort strRel l1
  · exact List.sorted_insertionSort strRel l2

theorem diffFeatures_keys_comm (a b : Option StrMap) :
    sortStrings ((okeys a ++ okeys b).dedup) = sortStrings ((okeys b ++ okeys a).dedup) := by
  apply sortStrings_eq_of_perm
  rw [List.perm_ext_iff_of_nodup (List.nodup_dedup _) (List.nodup_dedup _)]
  intro x
  simp [List.mem_dedup, or_comm]

/-- Swapping the two diffFeatures arguments swaps each entry's old/new. -/
theorem diffFeatures_swap (a b : Option StrMap) :
    diffFeatures a b = (diffFeatures b a).map fun d => ⟨d.feature, d.new, d.old⟩ := by
  unfold diffFeatures
  rw [diffFeatures_keys_comm a b, List.map_filterMap]
  exact congrArg (fun fn => List.filterMap fn (sortStrings ((okeys b ++ okeys a).dedup)))
    (by
      funext k
      by_cases h : ofind a k = ofind b k
      · simp [h]
      · have h2 : ¬ ofind b k = ofind a k := fun e => h e.symm
        simp [h, h2])

theorem diffFeatures_empty_swap {a b : Option StrMap} (h : diffFeatures a b = []) :
    diffFeatures b a = [] := by
  have := diffFeatures_swap b a
  rw [h] at this
  simpa using this

/-- Every diffFeatures entry carries the two lookups of its key. -/
theorem diffFeatures_mem {a b : Option StrMap} {d : FeatureDiff}
    (h : d ∈ diffFeatures a b) :
    d.old = ofind a d.feature ∧ d.new = ofind b d.feature ∧ d.old ≠ d.new := by
  unfold diffFeatures at h
  rcases List.mem_filterMap.1 h with ⟨k, _, hk⟩
  by_cases he : ofind a k = ofind b k
  · simp [he] at hk
  · simp [he] at hk
    subst hk
    exact ⟨rfl, rfl, he⟩

/-! ## Claim C8: agent identity key -/

/-- The external-agent-link field of an agent, read through the possibly-nil
Dialogflow definition (absent definition reads as the empty link). -/
def agentDialogflowLink (ag : Agent) : String :=
  match ag.dialogflowAgentDefinition with
  | some d => d.dialogflowAgent
  | none => ""

/-- C8: the derived identity key is the lower-casing of the first non-empty
field in the precedence order external-agent-link, display name, server name;
a nil agent, and an agent with all three absent, key to the empty string. -/
theorem agentSnapshotKey_firstNonEmpty :
    agentSnapshotKey none = "" ∧
    ∀ ag : Agent,
      (agentDialogflowLink ag ≠ "" →
        agentSnapshotKey (some ag) = lowerString (agentDialogflowLink ag)) ∧
      (agentDialogflowLink ag = "" → ag.displayName ≠ "" →
        agentSnapshotKey (some ag) = lowerString ag.displayName) ∧
      (agentDialogflowLink ag = "" → ag.displayName = "" →
        agentSnapshotKey (some ag) = lowerString ag.name) ∧
      (agentDialogflowLink ag = "" → ag.displayName = "" → ag.name = "" →
        agentSnapshotKey (some ag) = "") := by
  refine ⟨rfl, fun ag => ⟨?_, ?_, ?_, ?_⟩⟩
  · intro h
    cases hd : ag.dialogflowAgentDefinition with
    | none => rw [agentDialogflowLink, hd] at h; exact absurd rfl h
    | some d =>
      rw [agentDialogflowLink, hd] at h ⊢
      simp [agentSnapshotKey, hd, h]
  · intro h hdn
    cases hd : ag.dialogflowAgentDefinition with
    | none => simp [agentSnapshotKey, hd, hdn]
    | some d =>
      simp [agentDialogflowLink, hd] at h
      simp [agentSnapshotKey, hd, h, hdn]
  · intro h hdn
    cases hd : ag.dialogflowAgentDefinition with
    | none => simp [agentSnapshotKey, hd, hdn]
    | some d =>
      simp [agentDialogflowLink, hd] at h
      simp [agentSnapshotKey, hd, h, hdn]
  · intro h hdn hn
    cases hd : ag.dialogflowAgentDefinition with
    | none => simp [agentSnapshotKey, hd, hdn, hn, lowerString]
    | some d =>
      simp [agentDialogflowLink, hd] at h
      simp [agentSnapshotKey, hd, h, hdn, hn, lowerString]

/-- A concrete agent whose Dialogflow link decides its key. -/
def c8agent : Agent := ⟨"srv-name", "Disp", "", none, some ⟨"Projects/P/agents/123"⟩, "", "", "", none, none, none, none, none, none, none, none⟩

/-- Witness for C8 at a concrete agent: the link takes precedence over the
display name and is lower-cased. -/
theorem agentSnapshotKey_firstNonEmpty_witness :
    agentDialogflowLink c8agent ≠ "" ∧
    agentSnapshotKey (some c8agent) = lowerString (agentDialogflowLink c8agent) :=
  ⟨by decide, (agentSnapshotKey_firstNonEmpty.2 c8agent).1 (by decide)⟩

/-! ## Claim C2: diff determinism -/

/-- An agent keyed "a". -/
def c2agentA : Agent := ⟨"", "a", "", none, none, "", "", "", none, none, none, none, none, none, none, none⟩

/-- An agent keyed "b". -/
def c2agentB : Agent := ⟨"", "b", "", none, none, "", "", "", none, none, none, none, none, none, none, none⟩

/-- A snapshot with no agents. -/
def c2A : EngineSnapshot :=
  ⟨⟨"v1", "", "", "", "", "", "", "", "", ""⟩, ⟨"", "", "", "", none, none, none, none⟩, none⟩

/-- The same snapshot with two agents added. -/
def c2B : EngineSnapshot :=
  ⟨⟨"v1", "", "", "", "", "", "", "", "", ""⟩, ⟨"", "", "", "", none, none, none, none⟩,
    some [c2agentA, c2agentB]⟩

/-- C2 fails on the code: diffAgents emits agent changes in Go map iteration
order without sorting, so two runs on identical inputs that happen to receive
different (equally valid) iteration orders produce different diffs.  Both
orders below are permutations of the desired map's key list, yet the
resulting DiffSnapshots values differ. -/
theorem DiffSnapshots_agentChange_order_unstable :
    List.Perm ["a", "b"] (mapKeys (buildAgentMap (c2B.agents.getD []))) ∧
    List.Perm ["b", "a"] (mapKeys (buildAgentMap (c2B.agents.getD []))) ∧
    DiffSnapshots c2A c2B ["a", "b"] [] ≠ DiffSnapshots c2A c2B ["b", "a"] [] := by decide

/-! ## Claim C6: missing target without create option -/

/-- C6: with a target lookup reporting not-found and creation disabled,
restore returns a nil result and the precondition-failed error ("engine not
found and create option disabled"), and issues no write call. -/
theorem restore_missing_target_no_create (env : Env) (now : String) (S : EngineSnapshot)
    (opts : SnapshotRestoreOptions) (o1 o2 o3 o4 : List String)
    (hNF : env.engineLookup = .notFound) (hC : opts.createIfMissing = false)
    (hT : opts.targetEngineName ≠ "") :
    (RestoreEngineSnapshot env now (some S) opts o1 o2 o3 o4).result = none ∧
    (RestoreEngineSnapshot env now (some S) opts o1 o2 o3 o4).error =
      some (.notFoundCreateDisabled opts.targetEngineName) ∧
    (RestoreEngineSnapshot env now (some S) opts o1 o2 o3 o4).calls.filter ApiCall.isWrite = [] := by
  unfold RestoreEngineSnapshot
  simp [hT, hNF, hC, ApiCall.isWrite]

/-- The environment of the C6 witness: target lookup answers not-found. -/
def c6env : Env := ⟨.notFound, none, fun _ => true⟩

/-- A minimal snapshot used by several witnesses. -/
def plainSnapshot : EngineSnapshot :=
  ⟨⟨"v1", "", "", "", "", "", "", "", "", ""⟩, ⟨"", "", "", "", none, none, none, none⟩, none⟩

/-- Witness for C6 at a concrete environment and snapshot. -/
theorem restore_missing_target_no_create_witness :
    (RestoreEngineSnapshot c6env "t0" (some plainSnapshot) ⟨"eng", false, false, false⟩
      [] [] [] []).result = none ∧
    (RestoreEngineSnapshot c6env "t0" (some plainSnapshot) ⟨"eng", false, false, false⟩
      [] [] [] []).error = some (.notFoundCreateDisabled "eng") ∧
    (RestoreEngineSnapshot c6env "t0" (some plainSnapshot) ⟨"eng", false, false, false⟩
      [] [] [] []).calls.filter ApiCall.isWrite = [] :=
  restore_missing_target_no_create c6env "t0" plainSnapshot ⟨"eng", false, false, false⟩
    [] [] [] [] rfl rfl (by decide)

/-! ## Claim C4: dry run performs no writes -/

/-- The engine the environment's lookup resolved, if any. -/
def envExisting (env : Env) : Option Engine :=
  match env.engineLookup with
  | .found e => some e
  | _ => none

/-- C4: with DryRun set, restore issues no write-capable call whatever the
other options are, returns no result, and on the non-error paths returns
exactly the preview diff. -/
theorem restore_dryRun_no_writes (env : Env) (now : String) (S : EngineSnapshot)
    (opts : SnapshotRestoreOptions) (o1 o2 o3 o4 : List String)
    (hD : opts.dryRun = true) :
    (RestoreEngineSnapshot env now (some S) opts o1 o2 o3 o4).calls.filter ApiCall.isWrite = [] ∧
    (RestoreEngineSnapshot env now (some S) opts o1 o2 o3 o4).result = none ∧
    ((RestoreEngineSnapshot env now (some S) opts o1 o2 o3 o4).error = none →
      (RestoreEngineSnapshot env now (some S) opts o1 o2 o3 o4).diff =
        restorePreviewDiff (envExisting env) ((env.agentsLookup).getD []) S now o1 o2) := by
  unfold RestoreEngineSnapshot restoreMain envExisting
  by_cases hT : opts.targetEngineName = ""
  · simp [hT]
  · cases hE : env.engineLookup with
    | failed => simp [hT, hE, ApiCall.isWrite]
    | notFound =>
      by_cases hC : opts.createIfMissing
      · simp [hT, hE, hC, hD, ApiCall.isWrite]
        rfl
      · simp [hT, hE, hC, ApiCall.isWrite]
    | found e =>
      cases hA : env.agentsLookup with
      | none => simp [hT, hE, hA, ApiCall.isWrite]
      | some las => simp [hT, hE, hA, hD, ApiCall.isWrite]

/-- The environment of the C4 witness: an existing engine with one feature
and one agent, all writes accepted. -/
def c4env : Env :=
  ⟨.found ⟨"projects/p/engines/eng", "E", "SOLUTION_TYPE_SEARCH", "GENERIC", "APP_TYPE_INTRANET",
    ["ds1"], none, some [("agent-gallery", "OFF")], none⟩,
   some [⟨"srv", "Helper", "", none, none, "", "", "", none, none, none, none, none, none, none, none⟩], fun _ => true⟩

/-- Witness for C4: a dry run against a differing live engine, with creation
and updating both enabled, still issues no write call. -/
theorem restore_dryRun_no_writes_witness :
    (RestoreEngineSnapshot c4env "t0" (some plainSnapshot) ⟨"eng", true, true, true⟩
      ["helper"] [] ["helper"] []).calls.filter ApiCall.isWrite = [] ∧
    (RestoreEngineSnapshot c4env "t0" (some plainSnapshot) ⟨"eng", true, true, true⟩
      ["helper"] [] ["helper"] []).result = none :=
  ⟨(restore_dryRun_no_writes c4env "t0" plainSnapshot ⟨"eng", true, true, true⟩
      ["helper"] [] ["helper"] [] rfl).1,
   (restore_dryRun_no_writes c4env "t0" plainSnapshot ⟨"eng", true, true, true⟩
      ["helper"] [] ["helper"] [] rfl).2.1⟩

/-! ## Restore path lemmas -/

theorem restore_found_eq (env : Env) (now : String) (snap : EngineSnapshot)
    (opts : SnapshotRestoreOptions) (o1 o2 o3 o4 : List String) (e : Engine) (las : List Agent)
    (hE : env.engineLookup = .found e) (hA : env.agentsLookup = some las)
    (hT : opts.targetEngineName ≠ "") (hD : opts.dryRun = false) :
    RestoreEngineSnapshot env now (some snap) opts o1 o2 o3 o4 =
      restoreApply env snap opts (some e) las
        (restorePreviewDiff (some e) las snap now o1 o2)
        [ApiCall.getEngine opts.targetEngineName, ApiCall.listAgents opts.targetEngineName]
        o3 o4 := by
  unfold RestoreEngineSnapshot restoreMain
  simp [hE, hA, hT, hD]

theorem restoreFinish_diff (env : Env) (snap : EngineSnapshot) (opts : SnapshotRestoreOptions)
    (ex : Option Engine) (las : List Agent) (cd : SnapshotDiff) (calls : List ApiCall)
    (created patched : Bool) (o3 o4 : List String) :
    (restoreFinish env snap opts ex las cd calls created patched o3 o4).diff = cd := by
  unfold restoreFinish
  repeat' split
  all_goals rfl

theorem restoreApply_diff (env : Env) (snap : EngineSnapshot) (opts : SnapshotRestoreOptions)
    (ex : Option Engine) (las : List Agent) (cd : SnapshotDiff) (calls : List ApiCall)
    (o3 o4 : List String) :
    (restoreApply env snap opts ex las cd calls o3 o4).diff = cd := by
  unfold restoreApply
  repeat' split
  all_goals first
    | rfl
    | apply restoreFinish_diff

theorem restoreFinish_fields (env : Env) (snap : EngineSnapshot) (opts : SnapshotRestoreOptions)
    (ex : Option Engine) (las : List Agent) (cd : SnapshotDiff) (calls : List ApiCall)
    (created patched : Bool) (o3 o4 : List String) (r : SnapshotRestoreResult)
    (h : (restoreFinish env snap opts ex las cd calls created patched o3 o4).result = some r) :
    r.engineName = opts.targetEngineName ∧ r.created = created ∧ r.enginePatched = patched ∧
      r.featureChanges = diffFeatures (existingEngineFeatures ex) snap.engine.features := by
  unfold restoreFinish at h
  split at h
  · simp at h
  · split at h
    · simp at h
    · simp at h
      subst h
      exact ⟨rfl, rfl, rfl, rfl⟩

theorem restoreApply_found_result (env : Env) (snap : EngineSnapshot)
    (opts : SnapshotRestoreOptions) (e : Engine) (las : List Agent) (cd : SnapshotDiff)
    (calls : List ApiCall) (o3 o4 : List String) (r : SnapshotRestoreResult)
    (h : (restoreApply env snap opts (some e) las cd calls o3 o4).result = some r) :
    r.engineName = opts.targetEngineName ∧ r.created = false ∧
      r.enginePatched = opts.updateExisting ∧
      r.featureChanges = diffFeatures (existingEngineFeatures (some e)) snap.engine.features := by
  rcases hp : patchEngineFromSnapshot env opts.targetEngineName e snap.engine with ⟨perr, pcalls⟩
  cases hU : opts.updateExisting with
  | false =>
    simp only [restoreApply, hU, Bool.false_eq_true, if_false] at h
    have := restoreFinish_fields _ _ _ _ _ _ _ _ _ _ _ r h
    simpa [hU] using this
  | true =>
    simp only [restoreApply, hU, if_true] at h
    rw [hp] at h
    cases perr with
    | some e2 => simp at h
    | none =>
      have := restoreFinish_fields _ _ _ _ _ _ _ _ _ _ _ r h
      simpa [hU] using this

theorem applyFeature_calls_patchFree (env : Env) (n : String) (d : Option StrMap) :
    ((applyFeatureSnapshot env n d).2).filter ApiCall.isEnginePatch = [] := by
  unfold applyFeatureSnapshot
  cases d with
  | none => rfl
  | some m =>
    by_cases h : env.writeOk (.updateFeatures n m) <;> simp [h, ApiCall.isEnginePatch]

theorem createAgent_calls_patchFree (env : Env) (n : String) (a : Agent) :
    ((createAgentFromSnapshot env n a).2).filter ApiCall.isEnginePatch = [] := by
  unfold createAgentFromSnapshot
  repeat' split
  all_goals try simp [ApiCall.isEnginePatch]
  all_goals split <;> simp [ApiCall.isEnginePatch]

theorem updateAgent_calls_patchFree (env : Env) (ex da : Agent) (mask : List String) :
    ((updateAgentFromSnapshot env ex da mask).2).filter ApiCall.isEnginePatch = [] := by
  unfold updateAgentFromSnapshot
  repeat' split
  all_goals try simp [ApiCall.isEnginePatch]
  all_goals split <;> simp [ApiCall.isEnginePatch]

theorem syncUpserts_calls_patchFree (env : Env) (n : String) (cm dm : AgentMap)
    (ks : List String) :
    ((syncUpserts env n cm dm ks).2.2).filter ApiCall.isEnginePatch = [] := by
  induction ks with
  | nil => rfl
  | cons k rest ih =>
    unfold syncUpserts
    cases hdm : dm.lookup k with
    | none => simpa [hdm] using ih
    | some dA =>
      cases hcm : cm.lookup k with
      | some ex =>
        rcases hdf : diffAgentsFields ex dA with ⟨mask, nu⟩
        cases nu with
        | false => simpa [hdm, hcm, hdf] using ih
        | true =>
          rcases hu : updateAgentFromSnapshot env ex dA mask with ⟨uerr, ucalls⟩
          have hufree : ucalls.filter ApiCall.isEnginePatch = [] := by
            have := updateAgent_calls_patchFree env ex dA mask
            rwa [hu] at this
          cases uerr with
          | some e2 => simp [hdm, hcm, hdf, hu, hufree]
          | none =>
            rcases hr : syncUpserts env n cm dm rest with ⟨rerr, rch, rcalls⟩
            have hrfree : rcalls.filter ApiCall.isEnginePatch = [] := by
              have := ih
              rwa [hr] at this
            simp [hdm, hcm, hdf, hu, hr, List.filter_append, hufree, hrfree]
      | none =>
        rcases hc : createAgentFromSnapshot env n dA with ⟨cerr, ccalls⟩
        have hcfree : ccalls.filter ApiCall.isEnginePatch = [] := by
          have := createAgent_calls_patchFree env n dA
          rwa [hc] at this
        cases cerr with
        | some e2 => simp [hdm, hcm, hc, hcfree]
        | none =>
          rcases hr : syncUpserts env n cm dm rest with ⟨rerr, rch, rcalls⟩
          have hrfree : rcalls.filter ApiCall.isEnginePatch = [] := by
            have := ih
            rwa [hr] at this
          simp [hdm, hcm, hc, hr, List.filter_append, hcfree, hrfree]

theorem syncRemovals_calls_patchFree (env : Env) (cm dm : AgentMap) (ks : List String) :
    ((syncRemovals env cm dm ks).2.2).filter ApiCall.isEnginePatch = [] := by
  induction ks with
  | nil => rfl
  | cons k rest ih =>
    unfold syncRemovals
    cases hcm : cm.lookup k with
    | none => simpa [hcm] using ih
    | some ex =>
      cases hdm : dm.lookup k with
      | some dA => simpa [hcm, hdm] using ih
      | none =>
        by_cases hw : env.writeOk (.deleteAgent ex.name)
        · rcases hr : syncRemovals env cm dm rest with ⟨rerr, rch, rcalls⟩
          have hrfree : rcalls.filter ApiCall.isEnginePatch = [] := by
            have := ih
            rwa [hr] at this
          simp [hcm, hdm, hw, hr, ApiCall.isEnginePatch, hrfree]
        · simp [hcm, hdm, hw, ApiCall.isEnginePatch]

theorem syncAgents_calls_patchFree (env : Env) (n : String) (current desired : List Agent)
    (o3 o4 : List String) :
    ((syncAgentsWithSnapshot env n current desired o3 o4).2.2).filter ApiCall.isEnginePatch
      = [] := by
  unfold syncAgentsWithSnapshot
  rcases hu : syncUpserts env n (buildAgentMap current) (buildAgentMap desired) o3
    with ⟨uerr, uch, ucalls⟩
  have hufree : ucalls.filter ApiCall.isEnginePatch = [] := by
    have := syncUpserts_calls_patchFree env n (buildAgentMap current) (buildAgentMap desired) o3
    rwa [hu] at this
  cases uerr with
  | some e2 => simp [hu, hufree]
  | none =>
    rcases hv : syncRemovals env (buildAgentMap current) (buildAgentMap desired) o4
      with ⟨verr, vch, vcalls⟩
    have hvfree : vcalls.filter ApiCall.isEnginePatch = [] := by
      have := syncRemovals_calls_patchFree env (buildAgentMap current) (buildAgentMap desired) o4
      rwa [hv] at this
    cases verr with
    | some e2 => simp [hu, hv, List.filter_append, hufree, hvfree]
    | none => simp [hu, hv, List.filter_append, hufree, hvfree]

theorem restoreFinish_calls_patchFree (env : Env) (snap : EngineSnapshot)
    (opts : SnapshotRestoreOptions) (ex : Option Engine) (las : List Agent) (cd : SnapshotDiff)
    (calls : List ApiCall) (created patched : Bool) (o3 o4 : List String)
    (hc : calls.filter ApiCall.isEnginePatch = []) :
    (restoreFinish env snap opts ex las cd calls created patched o3 o4).calls.filter
      ApiCall.isEnginePatch = [] := by
  unfold restoreFinish
  rcases hf : applyFeatureSnapshot env opts.targetEngineName snap.engine.features
    with ⟨ferr, fcalls⟩
  have hffree : fcalls.filter ApiCall.isEnginePatch = [] := by
    have := applyFeature_calls_patchFree env opts.targetEngineName snap.engine.features
    rwa [hf] at this
  cases ferr with
  | some e2 => simp [hf, List.filter_append, hc, hffree]
  | none =>
    rcases hs : syncAgentsWithSnapshot env opts.targetEngineName las (snap.agents.getD []) o3 o4
      with ⟨serr, sch, scalls⟩
    have hsfree : scalls.filter ApiCall.isEnginePatch = [] := by
      have := syncAgents_calls_patchFree env opts.targetEngineName las (snap.agents.getD []) o3 o4
      rwa [hs] at this
    cases serr with
    | some e2 => simp [hf, hs, List.filter_append, hc, hffree, hsfree]
    | none => simp [hf, hs, List.filter_append, hc, hffree, hsfree]

/-! ## Claim C9: UpdateExisting marks EnginePatched even without a patch call -/

/-- C9: a non-dry-run restore against an existing engine with UpdateExisting
set reports EnginePatched on its result whenever it returns one — and when
the computed update mask is empty, no engine patch call appears in the trace
at all. -/
theorem restore_updateExisting_sets_patched (env : Env) (now : String) (snap : EngineSnapshot)
    (opts : SnapshotRestoreOptions) (o1 o2 o3 o4 : List String) (e : Engine) (las : List Agent)
    (r : SnapshotRestoreResult)
    (hE : env.engineLookup = .found e) (hA : env.agentsLookup = some las)
    (hT : opts.targetEngineName ≠ "") (hD : opts.dryRun = false)
    (hU : opts.updateExisting = true)
    (hR : (RestoreEngineSnapshot env now (some snap) opts o1 o2 o3 o4).result = some r) :
    r.enginePatched = true ∧
    (patchMask e snap.engine = [] →
      (RestoreEngineSnapshot env now (some snap) opts o1 o2 o3 o4).calls.filter
        ApiCall.isEnginePatch = []) := by
  rw [restore_found_eq env now snap opts o1 o2 o3 o4 e las hE hA hT hD] at hR ⊢
  constructor
  · have := restoreApply_found_result env snap opts e las _ _ o3 o4 r hR
    rw [this.2.2.1, hU]
  · intro hM
    have hp : patchEngineFromSnapshot env opts.targetEngineName e snap.engine = (none, []) := by
      unfold patchEngineFromSnapshot
      simp [hM]
    simp only [restoreApply, hU, if_true, hp]
    apply restoreFinish_calls_patchFree
    simp [ApiCall.isEnginePatch]

/-- The engine of the C9 witness: every tracked field either matches the
snapshot or is guarded by the non-empty check, so the update mask is empty. -/
def c9engine : Engine :=
  ⟨"projects/p/engines/eng", "Live", "SOLUTION_TYPE_SEARCH", "GENERIC", "APP_TYPE_INTRANET",
    [], none, none, none⟩

/-- The environment of the C9 witness. -/
def c9env : Env := ⟨.found c9engine, some [], fun _ => true⟩

/-- Witness for C9: the restore succeeds, the mask is empty, no patch call is
made, and the result still reports EnginePatched. -/
theorem restore_updateExisting_sets_patched_witness :
    (⟨"eng", false, true, [], []⟩ : SnapshotRestoreResult).enginePatched = true ∧
    (patchMask c9engine plainSnapshot.engine = [] →
      (RestoreEngineSnapshot c9env "t0" (some plainSnapshot) ⟨"eng", false, true, false⟩
        [] [] [] []).calls.filter ApiCall.isEnginePatch = []) :=
  restore_updateExisting_sets_patched c9env "t0" plainSnapshot ⟨"eng", false, true, false⟩
    [] [] [] [] c9engine [] ⟨"eng", false, true, [], []⟩ rfl rfl (by decide) rfl rfl (by decide)

/-! ## Claim C10: orientation of the two diffs of a restore -/

/-- C10: in a non-dry-run restore against an existing engine, the returned
preview diff's feature entries read Old from the desired snapshot and New
from the live engine, while the result's FeatureChanges read Old from the
live pre-apply state and New from the desired snapshot. -/
theorem restore_diff_orientation (env : Env) (now : String) (snap : EngineSnapshot)
    (opts : SnapshotRestoreOptions) (o1 o2 o3 o4 : List String) (e : Engine) (las : List Agent)
    (r : SnapshotRestoreResult)
    (hE : env.engineLookup = .found e) (hA : env.agentsLookup = some las)
    (hT : opts.targetEngineName ≠ "") (hD : opts.dryRun = false)
    (hR : (RestoreEngineSnapshot env now (some snap) opts o1 o2 o3 o4).result = some r) :
    (RestoreEngineSnapshot env now (some snap) opts o1 o2 o3 o4).diff.featureChanges =
      diffFeatures snap.engine.features (cloneStringMap e.features) ∧
    r.featureChanges = diffFeatures (cloneStringMap e.features) snap.engine.features ∧
    (∀ d ∈ (RestoreEngineSnapshot env now (some snap) opts o1 o2 o3 o4).diff.featureChanges,
      d.old = ofind snap.engine.features d.feature ∧
      d.new = ofind (cloneStringMap e.features) d.feature) ∧
    (∀ d ∈ r.featureChanges,
      d.old = ofind (cloneStringMap e.features) d.feature ∧
      d.new = ofind snap.engine.features d.feature) := by
  rw [restore_found_eq env now snap opts o1 o2 o3 o4 e las hE hA hT hD] at hR ⊢
  have hdiff := restoreApply_diff env snap opts (some e) las
    (restorePreviewDiff (some e) las snap now o1 o2)
    [ApiCall.getEngine opts.targetEngineName, ApiCall.listAgents opts.targetEngineName] o3 o4
  have hfields := restoreApply_found_result env snap opts e las _ _ o3 o4 r hR
  have h2 : r.featureChanges = diffFeatures (cloneStringMap e.features) snap.engine.features :=
    hfields.2.2.2
  refine ⟨by rw [hdiff]; rfl, h2, ?_, ?_⟩
  · intro d hd
    rw [hdiff] at hd
    have hd2 : d ∈ diffFeatures snap.engine.features (cloneStringMap e.features) := hd
    exact ⟨(diffFeatures_mem hd2).1, (diffFeatures_mem hd2).2.1⟩
  · intro d hd
    rw [h2] at hd
    exact ⟨(diffFeatures_mem hd).1, (diffFeatures_mem hd).2.1⟩

/-- The engine of the C10 witness: the spec's feature scenario on the live
side. -/
def c10engine : Engine :=
  ⟨"projects/p/engines/eng", "", "", "", "", [], none,
    some [("agent-gallery", "OFF"), ("prompt-gallery", "ON")], none⟩

/-- The environment of the C10 witness. -/
def c10env : Env := ⟨.found c10engine, some [], fun _ => true⟩

/-- The desired snapshot of the C10 witness. -/
def c10snap : EngineSnapshot :=
  ⟨⟨"v1", "", "", "", "", "", "", "", "", ""⟩,
   ⟨"", "", "", "", none, none, some [("agent-gallery", "ON")], none⟩, none⟩

/-- The result the C10 witness restore computes. -/
def c10result : SnapshotRestoreResult :=
  ⟨"eng", false, false,
    [⟨"agent-gallery", "OFF", "ON"⟩, ⟨"prompt-gallery", "ON", ""⟩], []⟩

/-- Witness for C10 at a concrete restore with differing features. -/
theorem restore_diff_orientation_witness :
    (RestoreEngineSnapshot c10env "t0" (some c10snap) ⟨"eng", false, false, false⟩
      [] [] [] []).diff.featureChanges =
      diffFeatures c10snap.engine.features (cloneStringMap c10engine.features) ∧
    c10result.featureChanges =
      diffFeatures (cloneStringMap c10engine.features) c10snap.engine.features ∧
    (∀ d ∈ (RestoreEngineSnapshot c10env "t0" (some c10snap) ⟨"eng", false, false, false⟩
        [] [] [] []).diff.featureChanges,
      d.old = ofind c10snap.engine.features d.feature ∧
      d.new = ofind (cloneStringMap c10engine.features) d.feature) ∧
    (∀ d ∈ c10result.featureChanges,
      d.old = ofind (cloneStringMap c10engine.features) d.feature ∧
      d.new = ofind c10snap.engine.features d.feature) :=
  restore_diff_orientation c10env "t0" c10snap ⟨"eng", false, false, false⟩ [] [] [] []
    c10engine [] c10result rfl rfl (by decide) rfl (by decide)

/-! ## Claim C1: restore against a converged target -/

/-- A SnapshotDiff is empty iff its four lists are empty. -/
theorem SnapshotDiff.isEmpty_iff (d : SnapshotDiff) :
    d.IsEmpty = true ↔
      d.metadataChanges = [] ∧ d.engineChanges = [] ∧ d.featureChanges = [] ∧
        d.agentChanges = [] := by
  unfold SnapshotDiff.IsEmpty
  simp [List.length_eq_zero, and_assoc]

/-- Inverting an empty diffAgents result: when the iteration orders cover the
two maps, every desired key is matched without updates and every current key
is still desired. -/
theorem diffAgents_empty_inv (current desired : List Agent) (o1 o2 : List String)
    (h1 : o1.Perm (mapKeys (buildAgentMap desired)))
    (h2 : o2.Perm (mapKeys (buildAgentMap current)))
    (h : diffAgents current desired o1 o2 = []) :
    (∀ k dA, (buildAgentMap desired).lookup k = some dA →
      ∃ ex, (buildAgentMap current).lookup k = some ex ∧ (diffAgentsFields ex dA).2 = false) ∧
    (∀ k ex, (buildAgentMap current).lookup k = some ex →
      ∃ dA, (buildAgentMap desired).lookup k = some dA) := by
  unfold diffAgents at h
  rw [List.append_eq_nil] at h
  obtain ⟨hu, hr⟩ := h
  constructor
  · intro k dA hdm
    have hk1 : k ∈ o1 := h1.mem_iff.2 (assoc_mem_keys_of_lookup hdm)
    have hfk := List.filterMap_eq_nil_iff.1 hu k hk1
    simp only [hdm] at hfk
    cases hcm : (buildAgentMap current).lookup k with
    | none => simp only [hcm] at hfk; simp at hfk
    | some ex =>
      simp only [hcm] at hfk
      by_cases hnu : (diffAgentsFields ex dA).2 = true
      · simp [hnu] at hfk
      · exact ⟨ex, rfl, by simpa using hnu⟩
  · intro k ex hcm
    have hk2 : k ∈ o2 := h2.mem_iff.2 (assoc_mem_keys_of_lookup hcm)
    have hfk := List.filterMap_eq_nil_iff.1 hr k hk2
    simp only [hcm] at hfk
    cases hdm : (buildAgentMap desired).lookup k with
    | none => simp only [hdm] at hfk; simp at hfk
    | some dA => exact ⟨dA, rfl⟩

/-- syncUpserts is silent when every desired key is matched without updates. -/
theorem syncUpserts_silent (env : Env) (n : String) (cm dm : AgentMap) :
    ∀ ks : List String,
      (∀ k ∈ ks, ∀ dA, dm.lookup k = some dA →
        ∃ ex, cm.lookup k = some ex ∧ (diffAgentsFields ex dA).2 = false) →
      syncUpserts env n cm dm ks = (none, [], []) := by
  intro ks
  induction ks with
  | nil => intro _; rfl
  | cons k rest ih =>
    intro h
    unfold syncUpserts
    cases hdm : dm.lookup k with
    | none =>
      simp only [hdm]
      exact ih fun k2 hk2 => h k2 (List.mem_cons_of_mem _ hk2)
    | some dA =>
      rcases h k (List.mem_cons_self _ _) dA hdm with ⟨ex, hex, hnu⟩
      rcases hdf : diffAgentsFields ex dA with ⟨mask, nu⟩
      have hnu2 : nu = false := by rw [hdf] at hnu; exact hnu
      subst hnu2
      simp only [hdm, hex, hdf, Bool.false_eq_true, if_false]
      exact ih fun k2 hk2 => h k2 (List.mem_cons_of_mem _ hk2)

/-- syncRemovals is silent when every current key is still desired. -/
theorem syncRemovals_silent (env : Env) (cm dm : AgentMap) :
    ∀ ks : List String,
      (∀ k ∈ ks, ∀ ex, cm.lookup k = some ex → ∃ dA, dm.lookup k = some dA) →
      syncRemovals env cm dm ks = (none, [], []) := by
  intro ks
  induction ks with
  | nil => intro _; rfl
  | cons k rest ih =>
    intro h
    unfold syncRemovals
    cases hcm : cm.lookup k with
    | none =>
      simp only [hcm]
      exact ih fun k2 hk2 => h k2 (List.mem_cons_of_mem _ hk2)
    | some ex =>
      rcases h k (List.mem_cons_self _ _) ex hcm with ⟨dA, hdA⟩
      simp only [hcm, hdA]
      exact ih fun k2 hk2 => h k2 (List.mem_cons_of_mem _ hk2)

/-- C1 (amended): against a target whose preview diff is empty and whose
matched agents also need no update in the sync direction, a non-dry-run
restore with default options returns a Result with Created=false,
EnginePatched=false and empty change lists, and the only write call it
performs is the unconditional feature update, issued exactly when the
snapshot carries a non-nil feature map. -/
theorem restore_converged_writes_only_features (env : Env) (now : String)
    (snap : EngineSnapshot) (opts : SnapshotRestoreOptions) (o1 o2 o3 o4 : List String)
    (e : Engine) (las : List Agent)
    (hE : env.engineLookup = .found e) (hA : env.agentsLookup = some las)
    (hT : opts.targetEngineName ≠ "") (hD : opts.dryRun = false)
    (hU : opts.updateExisting = false) (hW : ∀ c, env.writeOk c = true)
    (h1 : o1.Perm (mapKeys (buildAgentMap las)))
    (h2 : o2.Perm (mapKeys (buildAgentMap (snap.agents.getD []))))
    (hEmpty : (RestoreEngineSnapshot env now (some snap) opts o1 o2 o3 o4).diff.IsEmpty = true)
    (hRev : ∀ p ∈ buildAgentMap las, ∀ q ∈ buildAgentMap (snap.agents.getD []),
      p.1 = q.1 → (diffAgentsFields p.2 q.2).2 = false) :
    (RestoreEngineSnapshot env now (some snap) opts o1 o2 o3 o4).result =
      some ⟨opts.targetEngineName, false, false, [], []⟩ ∧
    (RestoreEngineSnapshot env now (some snap) opts o1 o2 o3 o4).error = none ∧
    (RestoreEngineSnapshot env now (some snap) opts o1 o2 o3 o4).calls.filter ApiCall.isWrite =
      (match snap.engine.features with
       | none => []
       | some m => [ApiCall.updateFeatures opts.targetEngineName m]) := by
  rw [restore_found_eq env now snap opts o1 o2 o3 o4 e las hE hA hT hD] at hEmpty ⊢
  have hdiff := restoreApply_diff env snap opts (some e) las
    (restorePreviewDiff (some e) las snap now o1 o2)
    [ApiCall.getEngine opts.targetEngineName, ApiCall.listAgents opts.targetEngineName] o3 o4
  rw [hdiff] at hEmpty
  have hcomp := (SnapshotDiff.isEmpty_iff _).1 hEmpty
  have hfeat : diffFeatures snap.engine.features (cloneStringMap e.features) = [] :=
    hcomp.2.2.1
  have hagents : diffAgents (snap.agents.getD []) las o1 o2 = [] := hcomp.2.2.2
  obtain ⟨hfwd, hbwd⟩ := diffAgents_empty_inv (snap.agents.getD []) las o1 o2 h1 h2 hagents
  have hUps : syncUpserts env opts.targetEngineName (buildAgentMap las)
      (buildAgentMap (snap.agents.getD [])) o3 = (none, [], []) := by
    apply syncUpserts_silent
    intro k _ dA hdm
    rcases hbwd k dA hdm with ⟨lv, hlv⟩
    exact ⟨lv, hlv, hRev _ (assoc_lookup_mem hlv) _ (assoc_lookup_mem hdm) rfl⟩
  have hRem : syncRemovals env (buildAgentMap las) (buildAgentMap (snap.agents.getD [])) o4 =
      (none, [], []) := by
    apply syncRemovals_silent
    intro k _ ex hcm
    rcases hfwd k ex hcm with ⟨sx, hsx, _⟩
    exact ⟨sx, hsx⟩
  have hSync : syncAgentsWithSnapshot env opts.targetEngineName las (snap.agents.getD []) o3 o4 =
      (none, [], []) := by
    unfold syncAgentsWithSnapshot
    simp [hUps, hRem]
  have hFE : diffFeatures (cloneStringMap e.features) snap.engine.features = [] :=
    diffFeatures_empty_swap hfeat
  cases hfe : snap.engine.features with
  | none =>
    have hF : applyFeatureSnapshot env opts.targetEngineName snap.engine.features =
        (none, []) := by rw [hfe]; rfl
    simp only [restoreApply, hU, Bool.false_eq_true, if_false, restoreFinish, hF, hSync]
    refine ⟨?_, by trivial, ?_⟩
    · simp only [existingEngineFeatures, hFE]
    · simp [ApiCall.isWrite]
  | some m =>
    have hF : applyFeatureSnapshot env opts.targetEngineName snap.engine.features =
        (none, [ApiCall.updateFeatures opts.targetEngineName m]) := by
      rw [hfe]
      unfold applyFeatureSnapshot
      simp [hW]
    simp only [restoreApply, hU, Bool.false_eq_true, if_false, restoreFinish, hF, hSync]
    refine ⟨?_, by trivial, ?_⟩
    · simp only [existingEngineFeatures, hFE]
    · simp [ApiCall.isWrite]

/-- The live engine of the C1 counterexample, already matching the snapshot. -/
def c1engine : Engine :=
  ⟨"projects/p/engines/eng", "Same", "SOLUTION_TYPE_SEARCH", "GENERIC", "APP_TYPE_INTRANET",
    [], none, some [("agent-gallery", "ON")], none⟩

/-- The live agent of the C1 counterexample (empty reasoning engine). -/
def c1liveAgent : Agent := ⟨"srv", "helper", "", none, none, "", "", "", none, none, none, none, none, none, none, none⟩

/-- The snapshot agent of the C1 counterexample: same key and fields except a
non-empty reasoning engine, which the asymmetric update guard hides from the
preview diff but not from the sync step. -/
def c1snapAgent : Agent := ⟨"", "helper", "", none, none, "projects/p/re/1", "", "", none, none, none, none, none, none, none, none⟩

/-- The environment of the C1 counterexample. -/
def c1env : Env := ⟨.found c1engine, some [c1liveAgent], fun _ => true⟩

/-- The desired snapshot of the C1 counterexample, converged with the live
engine as far as DiffSnapshots can see. -/
def c1snap : EngineSnapshot :=
  ⟨⟨"v1", "", "", "", "", "", "", "Same", "", ""⟩,
   ⟨"Same", "SOLUTION_TYPE_SEARCH", "GENERIC", "APP_TYPE_INTRANET", none, none,
     some [("agent-gallery", "ON")], none⟩,
   some [c1snapAgent]⟩

/-- C1 fails on the code: on this converged target (the preview diff is
empty, with valid iteration orders) a non-dry-run restore with default
options still issues the unconditional feature-update write, and — because
diffAgentsFields is asymmetric in the reasoning-engine guard — an agent
update write, and returns a Result with a non-empty AgentChanges list. -/
theorem restore_converged_still_writes :
    List.Perm ["helper"] (mapKeys (buildAgentMap [c1liveAgent])) ∧
    List.Perm ["helper"] (mapKeys (buildAgentMap (c1snap.agents.getD []))) ∧
    (RestoreEngineSnapshot c1env "t0" (some c1snap) ⟨"eng", false, false, false⟩
      ["helper"] ["helper"] ["helper"] ["helper"]).diff.IsEmpty = true ∧
    (RestoreEngineSnapshot c1env "t0" (some c1snap) ⟨"eng", false, false, false⟩
      ["helper"] ["helper"] ["helper"] ["helper"]).calls.filter ApiCall.isWrite =
      [ApiCall.updateFeatures "eng" [("agent-gallery", "ON")],
       ApiCall.updateAgent "srv" ["reasoningEngine"]
         ⟨"helper", "", none, none, "projects/p/re/1"⟩] ∧
    (RestoreEngineSnapshot c1env "t0" (some c1snap) ⟨"eng", false, false, false⟩
      ["helper"] ["helper"] ["helper"] ["helper"]).result =
      some ⟨"eng", false, false, [],
        [⟨"helper", .updated, some c1liveAgent, some c1snapAgent⟩]⟩ := by decide

/-- The environment of the C1 amended witness: converged target, no agents. -/
def c1wenv : Env := ⟨.found c1engine, some [], fun _ => true⟩

/-- The snapshot of the C1 amended witness. -/
def c1wsnap : EngineSnapshot :=
  ⟨⟨"v1", "", "", "", "", "", "", "Same", "", ""⟩,
   ⟨"Same", "SOLUTION_TYPE_SEARCH", "GENERIC", "APP_TYPE_INTRANET", none, none,
     some [("agent-gallery", "ON")], none⟩,
   none⟩

/-- Witness for the amended C1: the only write on a converged target is the
feature-update call. -/
theorem restore_converged_writes_only_features_witness :
    (RestoreEngineSnapshot c1wenv "t0" (some c1wsnap) ⟨"eng", false, false, false⟩
      [] [] [] []).result = some ⟨"eng", false, false, [], []⟩ ∧
    (RestoreEngineSnapshot c1wenv "t0" (some c1wsnap) ⟨"eng", false, false, false⟩
      [] [] [] []).error = none ∧
    (RestoreEngineSnapshot c1wenv "t0" (some c1wsnap) ⟨"eng", false, false, false⟩
      [] [] [] []).calls.filter ApiCall.isWrite =
      [ApiCall.updateFeatures "eng" [("agent-gallery", "ON")]] := by
  have h := restore_converged_writes_only_features c1wenv "t0" c1wsnap
    ⟨"eng", false, false, false⟩ [] [] [] [] c1engine [] rfl rfl (by decide) rfl rfl
    (fun _ => rfl) (by decide) (by decide) (by decide) (by decide)
  exact ⟨h.1, h.2.1, h.2.2⟩

/-! ## Claim C5: symmetry of diff content -/

/-- Swapping the old/new slots of a field diff. -/
def swapFD (d : FieldDiff) : FieldDiff := ⟨d.field, d.new, d.old⟩

theorem map_swapFD_ite (c d : Prop) [Decidable c] [Decidable d] (h : c ↔ d) (x : FieldDiff) :
    (if c then [x] else []) = List.map swapFD (if d then [swapFD x] else []) := by
  by_cases hc : c
  · rw [if_pos hc, if_pos (h.1 hc)]
    simp [swapFD]
  · rw [if_neg hc, if_neg (fun hd => hc (h.2 hd))]
    rfl

theorem stringSlicesEqual_comm (a b : List String) :
    stringSlicesEqual a b = stringSlicesEqual b a := by
  unfold stringSlicesEqual
  by_cases h : a = b
  · rw [h]
  · rw [beq_eq_false_iff_ne.2 h, beq_eq_false_iff_ne.2 fun e => h e.symm]

theorem string_beq_comm (a b : String) : (a == b) = (b == a) := by
  by_cases h : a = b
  · rw [h]
  · rw [beq_eq_false_iff_ne.2 h, beq_eq_false_iff_ne.2 fun e => h e.symm]

theorem compareSearchConfigs_comm (a b : Option SearchEngineConfig) :
    compareSearchConfigs a b = compareSearchConfigs b a := by
  unfold compareSearchConfigs
  cases a with
  | none => cases b <;> rfl
  | some x =>
    cases b with
    | none => rfl
    | some y =>
      show (x.searchTier == y.searchTier &&
          stringSlicesEqual (x.searchAddOns.getD []) (y.searchAddOns.getD [])) =
        (y.searchTier == x.searchTier &&
          stringSlicesEqual (y.searchAddOns.getD []) (x.searchAddOns.getD []))
      rw [string_beq_comm, stringSlicesEqual_comm]

theorem ilen_eq (o : Option IMap) : ilen o = (ientries o).length := by cases o <;> rfl

theorem ifind_eq (o : Option IMap) (k : String) : ifind o k = (ientries o).lookup k := by
  cases o <;> rfl

theorem mapsEqual_symm_true {a b : Option IMap}
    (hA : ((ientries a).map (·.1)).Nodup) (hB : ((ientries b).map (·.1)).Nodup)
    (h : mapsEqual a b = true) : mapsEqual b a = true := by
  unfold mapsEqual at h ⊢
  rw [Bool.and_eq_true] at h
  obtain ⟨hlen, hall⟩ := h
  have hlen2 : ilen a = ilen b := by simpa using hlen
  have hmem : ∀ p ∈ ientries a, ∃ bv, (ientries b).lookup p.1 = some bv ∧
      p.2.render = bv.render := by
    intro p hp
    have := (List.all_eq_true.1 hall) p hp
    rw [ifind_eq] at this
    cases hf : (ientries b).lookup p.1 with
    | none => rw [hf] at this; simp at this
    | some bv =>
      rw [hf] at this
      exact ⟨bv, rfl, by simpa using this⟩
  have hsub : ((ientries a).map (·.1)) ⊆ ((ientries b).map (·.1)) := by
    intro k hk
    rcases List.mem_map.1 hk with ⟨p, hp, hpk⟩
    rcases hmem p hp with ⟨bv, hbv, _⟩
    exact hpk ▸ assoc_mem_keys_of_lookup hbv
  have hlenk : ((ientries b).map (·.1)).length ≤ ((ientries a).map (·.1)).length := by
    simp only [List.length_map]
    rw [← ilen_eq, ← ilen_eq, hlen2]
  have hperm : ((ientries a).map (·.1)).Perm ((ientries b).map (·.1)) :=
    (hA.subperm hsub).perm_of_length_le hlenk
  rw [Bool.and_eq_true]
  constructor
  · simp [hlen2]
  · rw [List.all_eq_true]
    intro q hq
    have hqk : q.1 ∈ (ientries a).map (·.1) := by
      refine hperm.mem_iff.2 ?_
      exact List.mem_map.2 ⟨q, hq, rfl⟩
    rcases List.mem_map.1 hqk with ⟨p, hp, hpk⟩
    rcases hmem p hp with ⟨bv, hbv, hrend⟩
    have hbq : (ientries b).lookup q.1 = some q.2 := assoc_lookup_eq_of_mem_nodup hB hq
    rw [hpk] at hbv
    have hbveq : bv = q.2 := by
      rw [hbv] at hbq
      exact (Option.some.inj hbq)
    have hpa : (ientries a).lookup q.1 = some p.2 := by
      have : (q.1, p.2) ∈ ientries a := by
        have hpe : p = (p.1, p.2) := rfl
        rw [← hpk]
        exact hpe ▸ hp
      exact assoc_lookup_eq_of_mem_nodup hA this
    rw [ifind_eq, hpa]
    have : q.2.render = p.2.render := by rw [← hbveq, ← hrend]
    simp [this]

theorem mapsEqual_comm {a b : Option IMap}
    (hA : ((ientries a).map (·.1)).Nodup) (hB : ((ientries b).map (·.1)).Nodup) :
    mapsEqual a b = mapsEqual b a := by
  cases h1 : mapsEqual a b <;> cases h2 : mapsEqual b a
  · rfl
  · have := mapsEqual_symm_true hB hA h2
    rw [h1] at this
    exact absurd this (by simp)
  · have := mapsEqual_symm_true hA hB h1
    rw [h2] at this
    exact absurd this (by simp)
  · rfl

theorem diffMetadata_swap (a b : SnapshotMetadata) :
    diffMetadata a b = (diffMetadata b a).map swapFD := by
  unfold diffMetadata
  simp only [List.map_append]
  exact congrArg₂ (· ++ ·)
    (congrArg₂ (· ++ ·) (map_swapFD_ite _ _ ne_comm _) (map_swapFD_ite _ _ ne_comm _))
    (map_swapFD_ite _ _ ne_comm _)

theorem diffEngineConfig_swap (a b : EngineConfigSnapshot)
    (hA : ((ientries a.commonConfig).map (·.1)).Nodup)
    (hB : ((ientries b.commonConfig).map (·.1)).Nodup) :
    diffEngineConfig a b = (diffEngineConfig b a).map swapFD := by
  unfold diffEngineConfig
  simp only [List.map_append]
  refine congrArg₂ (· ++ ·) ?_
    (map_swapFD_ite _ _ (by rw [compareSearchConfigs_comm a.searchConfig b.searchConfig]) _)
  refine congrArg₂ (· ++ ·) ?_
    (map_swapFD_ite _ _ (by rw [mapsEqual_comm hA hB]) _)
  refine congrArg₂ (· ++ ·) ?_
    (map_swapFD_ite _ _
      (by rw [stringSlicesEqual_comm (a.dataStoreIds.getD []) (b.dataStoreIds.getD [])]) _)
  refine congrArg₂ (· ++ ·) ?_ (map_swapFD_ite _ _ ne_comm _)
  refine congrArg₂ (· ++ ·) ?_ (map_swapFD_ite _ _ ne_comm _)
  exact congrArg₂ (· ++ ·) (map_swapFD_ite _ _ ne_comm _) (map_swapFD_ite _ _ ne_comm _)

theorem diffAgents_mem_added (current desired : List Agent) (o1 o2 : List String)
    (h1 : o1.Perm (mapKeys (buildAgentMap desired))) (k : String) (x : Agent) :
    (⟨k, .added, none, some x⟩ : AgentDiff) ∈ diffAgents current desired o1 o2 ↔
      ((buildAgentMap desired).lookup k = some x ∧
        (buildAgentMap current).lookup k = none) := by
  simp only [diffAgents, List.mem_append, List.mem_filterMap]
  constructor
  · rintro (⟨k2, hk2, hfk⟩ | ⟨k2, hk2, hfk⟩)
    · cases hdm : (buildAgentMap desired).lookup k2 with
      | none => simp [hdm] at hfk
      | some dA =>
        simp only [hdm] at hfk
        cases hcm : (buildAgentMap current).lookup k2 with
        | some ex =>
          simp only [hcm] at hfk
          by_cases hnu : (diffAgentsFields ex dA).2 = true <;> simp [hnu] at hfk
        | none =>
          simp only [hcm, Option.some.injEq, AgentDiff.mk.injEq] at hfk
          obtain ⟨hkk, -, -, hdx⟩ := hfk
          subst hkk
          subst hdx
          exact ⟨hdm, hcm⟩
    · cases hcm : (buildAgentMap current).lookup k2 with
      | none => simp [hcm] at hfk
      | some ex =>
        simp only [hcm] at hfk
        cases hdm : (buildAgentMap desired).lookup k2 with
        | some dA => simp [hdm] at hfk
        | none => simp [hdm] at hfk
  · rintro ⟨hdm, hcm⟩
    left
    refine ⟨k, h1.mem_iff.2 (assoc_mem_keys_of_lookup hdm), ?_⟩
    simp [hdm, hcm]

theorem diffAgents_mem_removed (current desired : List Agent) (o1 o2 : List String)
    (h2 : o2.Perm (mapKeys (buildAgentMap current))) (k : String) (x : Agent) :
    (⟨k, .removed, some x, none⟩ : AgentDiff) ∈ diffAgents current desired o1 o2 ↔
      ((buildAgentMap current).lookup k = some x ∧
        (buildAgentMap desired).lookup k = none) := by
  simp only [diffAgents, List.mem_append, List.mem_filterMap]
  constructor
  · rintro (⟨k2, hk2, hfk⟩ | ⟨k2, hk2, hfk⟩)
    · cases hdm : (buildAgentMap desired).lookup k2 with
      | none => simp [hdm] at hfk
      | some dA =>
        simp only [hdm] at hfk
        cases hcm : (buildAgentMap current).lookup k2 with
        | some ex =>
          simp only [hcm] at hfk
          by_cases hnu : (diffAgentsFields ex dA).2 = true <;> simp [hnu] at hfk
        | none => simp [hcm] at hfk
    · cases hcm : (buildAgentMap current).lookup k2 with
      | none => simp [hcm] at hfk
      | some ex =>
        simp only [hcm] at hfk
        cases hdm : (buildAgentMap desired).lookup k2 with
        | some dA => simp [hdm] at hfk
        | none =>
          simp only [hdm, Option.some.injEq, AgentDiff.mk.injEq] at hfk
          obtain ⟨hkk, -, hdx, -⟩ := hfk
          subst hkk
          subst hdx
          exact ⟨hcm, hdm⟩
  · rintro ⟨hcm, hdm⟩
    right
    refine ⟨k, h2.mem_iff.2 (assoc_mem_keys_of_lookup hcm), ?_⟩
    simp [hdm, hcm]

theorem diffAgents_mem_updated (current desired : List Agent) (o1 o2 : List String)
    (h1 : o1.Perm (mapKeys (buildAgentMap desired))) (k : String) (x y : Agent) :
    (⟨k, .updated, some x, some y⟩ : AgentDiff) ∈ diffAgents current desired o1 o2 ↔
      ((buildAgentMap desired).lookup k = some y ∧
        (buildAgentMap current).lookup k = some x ∧
        (diffAgentsFields x y).2 = true) := by
  simp only [diffAgents, List.mem_append, List.mem_filterMap]
  constructor
  · rintro (⟨k2, hk2, hfk⟩ | ⟨k2, hk2, hfk⟩)
    · cases hdm : (buildAgentMap desired).lookup k2 with
      | none => simp [hdm] at hfk
      | some dA =>
        simp only [hdm] at hfk
        cases hcm : (buildAgentMap current).lookup k2 with
        | some ex =>
          simp only [hcm] at hfk
          by_cases hnu : (diffAgentsFields ex dA).2 = true
          · simp only [hnu, if_true, Option.some.injEq, AgentDiff.mk.injEq] at hfk
            obtain ⟨hkk, -, hex, hdx⟩ := hfk
            subst hkk
            subst hex
            subst hdx
            exact ⟨hdm, hcm, hnu⟩
          · simp [hnu] at hfk
        | none => simp [hcm] at hfk
    · cases hcm : (buildAgentMap current).lookup k2 with
      | none => simp [hcm] at hfk
      | some ex =>
        simp only [hcm] at hfk
        cases hdm : (buildAgentMap desired).lookup k2 with
        | some dA => simp [hdm] at hfk
        | none => simp [hdm] at hfk
  · rintro ⟨hdm, hcm, hnu⟩
    left
    refine ⟨k, h1.mem_iff.2 (assoc_mem_keys_of_lookup hdm), ?_⟩
    simp [hdm, hcm, hnu]

/-- C5 (amended): DiffSnapshots is symmetric in content for metadata, engine
fields and feature flags unconditionally (entries with old/new swapped, given
unique common-config keys), and for agent changes — added in one direction
corresponding to removed for the same key in the other, and updated entries
with payloads swapped — provided the per-agent field diff is symmetric on
every matched pair (which the non-empty guards on reasoningEngine and the
Dialogflow link can break). -/
theorem DiffSnapshots_symmetric (A B : EngineSnapshot) (o1 o2 o3 o4 : List String)
    (h1 : o1.Perm (mapKeys (buildAgentMap (B.agents.getD []))))
    (h2 : o2.Perm (mapKeys (buildAgentMap (A.agents.getD []))))
    (h3 : o3.Perm (mapKeys (buildAgentMap (A.agents.getD []))))
    (h4 : o4.Perm (mapKeys (buildAgentMap (B.agents.getD []))))
    (hccA : ((ientries A.engine.commonConfig).map (·.1)).Nodup)
    (hccB : ((ientries B.engine.commonConfig).map (·.1)).Nodup)
    (hsym : ∀ p ∈ buildAgentMap (A.agents.getD []), ∀ q ∈ buildAgentMap (B.agents.getD []),
      p.1 = q.1 → (diffAgentsFields p.2 q.2).2 = (diffAgentsFields q.2 p.2).2) :
    (DiffSnapshots A B o1 o2).metadataChanges
        = ((DiffSnapshots B A o3 o4).metadataChanges).map swapFD ∧
    (DiffSnapshots A B o1 o2).engineChanges
        = ((DiffSnapshots B A o3 o4).engineChanges).map swapFD ∧
    (DiffSnapshots A B o1 o2).featureChanges
        = ((DiffSnapshots B A o3 o4).featureChanges).map
            (fun d => ⟨d.feature, d.new, d.old⟩) ∧
    (∀ k x, (⟨k, .added, none, some x⟩ : AgentDiff) ∈ (DiffSnapshots A B o1 o2).agentChanges ↔
      (⟨k, .removed, some x, none⟩ : AgentDiff) ∈ (DiffSnapshots B A o3 o4).agentChanges) ∧
    (∀ k x, (⟨k, .removed, some x, none⟩ : AgentDiff) ∈ (DiffSnapshots A B o1 o2).agentChanges ↔
      (⟨k, .added, none, some x⟩ : AgentDiff) ∈ (DiffSnapshots B A o3 o4).agentChanges) ∧
    (∀ k x y,
      (⟨k, .updated, some x, some y⟩ : AgentDiff) ∈ (DiffSnapshots A B o1 o2).agentChanges ↔
      (⟨k, .updated, some y, some x⟩ : AgentDiff) ∈ (DiffSnapshots B A o3 o4).agentChanges) := by
  refine ⟨diffMetadata_swap A.metadata B.metadata,
    diffEngineConfig_swap A.engine B.engine hccA hccB,
    diffFeatures_swap A.engine.features B.engine.features, ?_, ?_, ?_⟩
  · intro k x
    rw [show (DiffSnapshots A B o1 o2).agentChanges = diffAgents (A.agents.getD []) (B.agents.getD []) o1 o2 from rfl,
      show (DiffSnapshots B A o3 o4).agentChanges = diffAgents (B.agents.getD []) (A.agents.getD []) o3 o4 from rfl,
      diffAgents_mem_added (A.agents.getD []) (B.agents.getD []) o1 o2 h1 k x,
      diffAgents_mem_removed (B.agents.getD []) (A.agents.getD []) o3 o4 h4 k x]
  · intro k x
    rw [show (DiffSnapshots A B o1 o2).agentChanges = diffAgents (A.agents.getD []) (B.agents.getD []) o1 o2 from rfl,
      show (DiffSnapshots B A o3 o4).agentChanges = diffAgents (B.agents.getD []) (A.agents.getD []) o3 o4 from rfl,
      diffAgents_mem_removed (A.agents.getD []) (B.agents.getD []) o1 o2 h2 k x,
      diffAgents_mem_added (B.agents.getD []) (A.agents.getD []) o3 o4 h3 k x]
  · intro k x y
    rw [show (DiffSnapshots A B o1 o2).agentChanges = diffAgents (A.agents.getD []) (B.agents.getD []) o1 o2 from rfl,
      show (DiffSnapshots B A o3 o4).agentChanges = diffAgents (B.agents.getD []) (A.agents.getD []) o3 o4 from rfl,
      diffAgents_mem_updated (A.agents.getD []) (B.agents.getD []) o1 o2 h1 k x y,
      diffAgents_mem_updated (B.agents.getD []) (A.agents.getD []) o3 o4 h3 k y x]
    constructor
    · rintro ⟨hB, hA, hnu⟩
      refine ⟨hA, hB, ?_⟩
      rw [← hsym _ (assoc_lookup_mem hA) _ (assoc_lookup_mem hB) rfl]
      exact hnu
    · rintro ⟨hA, hB, hnu⟩
      refine ⟨hB, hA, ?_⟩
      rw [hsym _ (assoc_lookup_mem hA) _ (assoc_lookup_mem hB) rfl]
      exact hnu

/-- The snapshot A of the C5 counterexample: its agent carries a reasoning
engine. -/
def c5A : EngineSnapshot :=
  ⟨⟨"v1", "", "", "", "", "", "", "", "", ""⟩, ⟨"", "", "", "", none, none, none, none⟩,
    some [⟨"", "a", "", none, none, "projects/p/re/1", "", "", none, none, none, none, none, none, none, none⟩]⟩

/-- The snapshot B of the C5 counterexample: same agent without a reasoning
engine. -/
def c5B : EngineSnapshot :=
  ⟨⟨"v1", "", "", "", "", "", "", "", "", ""⟩, ⟨"", "", "", "", none, none, none, none⟩,
    some [⟨"", "a", "", none, none, "", "", "", none, none, none, none, none, none, none, none⟩]⟩

/-- C5 fails on the code: with valid iteration orders, DiffSnapshots(A, B) is
completely empty while DiffSnapshots(B, A) reports an updated agent — the
change sets are not identical with old/new swapped, because the
reasoning-engine guard of diffAgentsFields only fires when the desired side
is non-empty. -/
theorem DiffSnapshots_not_symmetric :
    List.Perm ["a"] (mapKeys (buildAgentMap (c5A.agents.getD []))) ∧
    List.Perm ["a"] (mapKeys (buildAgentMap (c5B.agents.getD []))) ∧
    DiffSnapshots c5A c5B ["a"] ["a"] = ⟨[], [], [], []⟩ ∧
    DiffSnapshots c5B c5A ["a"] ["a"] =
      ⟨[], [], [], [⟨"a", .updated, some ⟨"", "a", "", none, none, "", "", "", none, none, none, none, none, none, none, none⟩,
        some ⟨"", "a", "", none, none, "projects/p/re/1", "", "", none, none, none, none, none, none, none, none⟩⟩]⟩ := by decide

/-- The first snapshot of the C5 witness: differences in every category and a
symmetric agent update (both reasoning engines non-empty). -/
def c5wA : EngineSnapshot :=
  ⟨⟨"v1", "", "", "", "", "", "", "Alpha", "dA", ""⟩,
   ⟨"EA", "S", "G", "T", some ["d1"], some [("k", .str "v")], some [("f", "ON")],
     some ⟨"TIER1", none⟩⟩,
   some [⟨"", "ag", "", none, none, "projects/p/re/1", "", "", none, none, none, none, none, none, none, none⟩]⟩

/-- The second snapshot of the C5 witness. -/
def c5wB : EngineSnapshot :=
  ⟨⟨"v1", "", "", "", "", "", "", "Beta", "dB", ""⟩,
   ⟨"EB", "S", "G", "T", some ["d2"], some [("k", .str "w")], some [("f", "OFF")], none⟩,
   some [⟨"", "ag", "other", none, none, "projects/p/re/2", "", "", none, none, none, none, none, none, none, none⟩]⟩

/-- Witness for the amended C5 on two concrete snapshots differing in every
category. -/
theorem DiffSnapshots_symmetric_witness :
    (DiffSnapshots c5wA c5wB ["ag"] ["ag"]).metadataChanges
        = ((DiffSnapshots c5wB c5wA ["ag"] ["ag"]).metadataChanges).map swapFD ∧
    (DiffSnapshots c5wA c5wB ["ag"] ["ag"]).engineChanges
        = ((DiffSnapshots c5wB c5wA ["ag"] ["ag"]).engineChanges).map swapFD ∧
    (DiffSnapshots c5wA c5wB ["ag"] ["ag"]).featureChanges
        = ((DiffSnapshots c5wB c5wA ["ag"] ["ag"]).featureChanges).map
            (fun d => ⟨d.feature, d.new, d.old⟩) ∧
    (∀ k x, (⟨k, .added, none, some x⟩ : AgentDiff)
        ∈ (DiffSnapshots c5wA c5wB ["ag"] ["ag"]).agentChanges ↔
      (⟨k, .removed, some x, none⟩ : AgentDiff)
        ∈ (DiffSnapshots c5wB c5wA ["ag"] ["ag"]).agentChanges) ∧
    (∀ k x, (⟨k, .removed, some x, none⟩ : AgentDiff)
        ∈ (DiffSnapshots c5wA c5wB ["ag"] ["ag"]).agentChanges ↔
      (⟨k, .added, none, some x⟩ : AgentDiff)
        ∈ (DiffSnapshots c5wB c5wA ["ag"] ["ag"]).agentChanges) ∧
    (∀ k x y, (⟨k, .updated, some x, some y⟩ : AgentDiff)
        ∈ (DiffSnapshots c5wA c5wB ["ag"] ["ag"]).agentChanges ↔
      (⟨k, .updated, some y, some x⟩ : AgentDiff)
        ∈ (DiffSnapshots c5wB c5wA ["ag"] ["ag"]).agentChanges) :=
  DiffSnapshots_symmetric c5wA c5wB ["ag"] ["ag"] ["ag"] ["ag"]
    (by decide) (by decide) (by decide) (by decide) (by decide) (by decide) (by decide)

/-! ## Claim C7: snapshot document round-trip -/

theorem mapM_loop_str (xs : List String) (acc : List String) :
    List.mapM.loop (fun j =>
      match j with
      | Json.str s => some s
      | _ => none) (xs.map Json.str) acc = some (acc.reverse ++ xs) := by
  induction xs generalizing acc with
  | nil => simp [List.mapM.loop]
  | cons x xs ih => simp [List.mapM.loop, ih]

theorem mapM_str_roundtrip (l : List String) :
    (l.map Json.str).mapM (fun j =>
      match j with
      | Json.str s => some s
      | _ => none) = some l := by
  simpa using mapM_loop_str l []

theorem mapM_loop_strPair (xs : StrMap) (acc : StrMap) :
    List.mapM.loop (fun (p : String × Json) =>
      match p.2 with
      | Json.str s => some (p.1, s)
      | _ => none) (xs.map fun p => (p.1, Json.str p.2)) acc = some (acc.reverse ++ xs) := by
  induction xs generalizing acc with
  | nil => simp [List.mapM.loop]
  | cons x xs ih => simp [List.mapM.loop, ih]

theorem mapM_strPair_roundtrip (l : StrMap) :
    ((l.map fun p => (p.1, Json.str p.2)).mapM fun (p : String × Json) =>
      match p.2 with
      | Json.str s => some (p.1, s)
      | _ => none) = some l := by
  simpa using mapM_loop_strPair l []

theorem ifaceVal_roundtrip (v : IfaceVal) : IfaceVal.fromJson v.toJson = some v := by
  cases v <;> rfl

theorem mapM_loop_ifacePair (xs : IMap) (acc : IMap) :
    List.mapM.loop (fun (p : String × Json) =>
      (IfaceVal.fromJson p.2).map ((p.1, ·))) (xs.map fun p => (p.1, p.2.toJson)) acc =
      some (acc.reverse ++ xs) := by
  induction xs generalizing acc with
  | nil => simp [List.mapM.loop]
  | cons x xs ih => simp [List.mapM.loop, ih, ifaceVal_roundtrip]

theorem mapM_ifacePair_roundtrip (l : IMap) :
    ((l.map fun p => (p.1, p.2.toJson)).mapM fun (p : String × Json) =>
      (IfaceVal.fromJson p.2).map ((p.1, ·))) = some l := by
  simpa using mapM_loop_ifacePair l []

theorem decodeMetadata_roundtrip (m : SnapshotMetadata) :
    decodeMetadata (marshalMetadata m) = some m := by
  by_cases h1 : m.displayName = "" <;> by_cases h2 : m.description = "" <;>
    by_cases h3 : m.notes = "" <;>
      (simp [marshalMetadata, decodeMetadata, getStr, getField, reqStr, putStr, h1, h2, h3,
        List.lookup]
       try (cases m; simp_all))

theorem getField_nil (k : String) : getField [] k = none := rfl

theorem getField_reqStr_eval (k n v : String) (rest : List (String × Json)) :
    getField (reqStr n v ++ rest) k =
      if k = n then some (.str v) else getField rest k := by
  by_cases hk : k = n
  · simp [reqStr, getField, List.lookup, hk]
  · simp [reqStr, getField, List.lookup, hk, beq_eq_false_iff_ne.2 hk]

theorem getField_putStr_eval (k n v : String) (rest : List (String × Json)) :
    getField (putStr n v ++ rest) k =
      if k = n then (if v = "" then getField rest k else some (.str v))
      else getField rest k := by
  by_cases hk : k = n
  · by_cases hv : v = "" <;> simp [putStr, getField, List.lookup, hv, hk]
  · by_cases hv : v = "" <;>
      simp [putStr, getField, List.lookup, hv, hk, beq_eq_false_iff_ne.2 hk]

theorem getField_putStrList_eval (k n : String) (l : Option (List String))
    (rest : List (String × Json)) :
    getField (putStrList n l ++ rest) k =
      if k = n then
        (match l with
         | none => getField rest k
         | some xs => if xs.isEmpty then getField rest k else some (.arr (xs.map .str)))
      else getField rest k := by
  by_cases hk : k = n
  · rcases l with _ | xs
    · simp [putStrList, hk]
    · by_cases hxs : xs.isEmpty <;> simp [putStrList, getField, List.lookup, hxs, hk]
  · rcases l with _ | xs
    · simp [putStrList, hk]
    · by_cases hxs : xs.isEmpty <;>
        simp [putStrList, getField, List.lookup, hxs, hk, beq_eq_false_iff_ne.2 hk]

theorem getField_putSMap_eval (k n : String) (m : Option StrMap)
    (rest : List (String × Json)) :
    getField (putSMap n m ++ rest) k =
      if k = n then
        (match m with
         | none => getField rest k
         | some mm =>
           if mm.isEmpty then getField rest k
           else some (.obj ((sortEntries mm).map fun p => (p.1, Json.str p.2))))
      else getField rest k := by
  by_cases hk : k = n
  · rcases m with _ | mm
    · simp [putSMap, hk]
    · by_cases hmm : mm.isEmpty <;> simp [putSMap, getField, List.lookup, hmm, hk]
  · rcases m with _ | mm
    · simp [putSMap, hk]
    · by_cases hmm : mm.isEmpty <;>
        simp [putSMap, getField, List.lookup, hmm, hk, beq_eq_false_iff_ne.2 hk]

theorem getField_putIMap_eval (k n : String) (m : Option IMap)
    (rest : List (String × Json)) :
    getField (putIMap n m ++ rest) k =
      if k = n then
        (match m with
         | none => getField rest k
         | some mm =>
           if mm.isEmpty then getField rest k
           else some (.obj ((sortEntries mm).map fun p => (p.1, p.2.toJson))))
      else getField rest k := by
  by_cases hk : k = n
  · rcases m with _ | mm
    · simp [putIMap, hk]
    · by_cases hmm : mm.isEmpty <;> simp [putIMap, getField, List.lookup, hmm, hk]
  · rcases m with _ | mm
    · simp [putIMap, hk]
    · by_cases hmm : mm.isEmpty <;>
        simp [putIMap, getField, List.lookup, hmm, hk, beq_eq_false_iff_ne.2 hk]

theorem getField_putIMapList_eval (k n : String) (l : Option (List IMap))
    (rest : List (String × Json)) :
    getField (putIMapList n l ++ rest) k =
      if k = n then
        (match l with
         | none => getField rest k
         | some xs =>
           if xs.isEmpty then getField rest k
           else some (.arr (xs.map fun m =>
             Json.obj ((sortEntries m).map fun p => (p.1, p.2.toJson)))))
      else getField rest k := by
  by_cases hk : k = n
  · rcases l with _ | xs
    · simp [putIMapList, hk]
    · by_cases hxs : xs.isEmpty <;> simp [putIMapList, getField, List.lookup, hxs, hk]
  · rcases l with _ | xs
    · simp [putIMapList, hk]
    · by_cases hxs : xs.isEmpty <;>
        simp [putIMapList, getField, List.lookup, hxs, hk, beq_eq_false_iff_ne.2 hk]

theorem getField_putIcon_eval (k : String) (o : Option AgentIcon)
    (rest : List (String × Json)) :
    getField (putIcon o ++ rest) k =
      if k = "icon" then
        (match o with
         | none => getField rest k
         | some i => some (.obj (putStr "uri" i.uri ++ putStr "content" i.content)))
      else getField rest k := by
  by_cases hk : k = "icon"
  · rcases o with _ | i <;> simp [putIcon, getField, List.lookup, hk]
  · rcases o with _ | i <;>
      simp [putIcon, getField, List.lookup, hk, beq_eq_false_iff_ne.2 hk]

theorem getField_putDdef_eval (k : String) (o : Option DialogflowAgentDefinition)
    (rest : List (String × Json)) :
    getField (putDdef o ++ rest) k =
      if k = "dialogflowAgentDefinition" then
        (match o with
         | none => getField rest k
         | some d => some (.obj (putStr "dialogflowAgent" d.dialogflowAgent)))
      else getField rest k := by
  by_cases hk : k = "dialogflowAgentDefinition"
  · rcases o with _ | d <;> simp [putDdef, getField, List.lookup, hk]
  · rcases o with _ | d <;>
      simp [putDdef, getField, List.lookup, hk, beq_eq_false_iff_ne.2 hk]

theorem getField_putSearch_eval (k : String) (o : Option SearchEngineConfig)
    (rest : List (String × Json)) :
    getField (putSearch o ++ rest) k =
      if k = "searchConfig" then
        (match o with
         | none => getField rest k
         | some c => some (marshalSearchConfig c))
      else getField rest k := by
  by_cases hk : k = "searchConfig"
  · rcases o with _ | c <;> simp [putSearch, getField, List.lookup, hk]
  · rcases o with _ | c <;>
      simp [putSearch, getField, List.lookup, hk, beq_eq_false_iff_ne.2 hk]

theorem getField_putStr_last_eval (k n v : String) :
    getField (putStr n v) k =
      if k = n then (if v = "" then none else some (.str v)) else none := by
  have h := getField_putStr_eval k n v []
  simpa [getField_nil] using h

theorem getField_putStrList_last_eval (k n : String) (l : Option (List String)) :
    getField (putStrList n l) k =
      if k = n then
        (match l with
         | none => none
         | some xs => if xs.isEmpty then none else some (.arr (xs.map .str)))
      else none := by
  have h := getField_putStrList_eval k n l []
  simp only [List.append_nil, getField_nil] at h
  exact h

theorem getField_putIMap_last_eval (k n : String) (m : Option IMap) :
    getField (putIMap n m) k =
      if k = n then
        (match m with
         | none => none
         | some mm =>
           if mm.isEmpty then none
           else some (.obj ((sortEntries mm).map fun p => (p.1, p.2.toJson))))
      else none := by
  have h := getField_putIMap_eval k n m []
  simp only [List.append_nil, getField_nil] at h
  exact h

theorem getField_putSearch_last_eval (k : String) (o : Option SearchEngineConfig) :
    getField (putSearch o) k =
      if k = "searchConfig" then
        (match o with
         | none => none
         | some c => some (marshalSearchConfig c))
      else none := by
  have h := getField_putSearch_eval k o []
  simp only [List.append_nil, getField_nil] at h
  exact h

/-- A possibly-nil string slice in canonical document form: nil or non-empty
(omitempty collapses an empty non-nil slice to an absent key, which reloads
as nil). -/
def canonicalStrListOpt : Option (List String) → Prop
  | none => True
  | some l => l ≠ []

instance : (o : Option (List String)) → Decidable (canonicalStrListOpt o)
  | none => isTrue trivial
  | some l => inferInstanceAs (Decidable (l ≠ []))

/-- A possibly-nil string map in canonical document form: nil, or non-empty
with its entries already in sorted key order (the form the decoder produces). -/
def canonicalStrMapOpt : Option StrMap → Prop
  | none => True
  | some m => m ≠ [] ∧ sortEntries m = m

instance : (o : Option StrMap) → Decidable (canonicalStrMapOpt o)
  | none => isTrue trivial
  | some _ => inferInstanceAs (Decidable (_ ∧ _))

/-- A possibly-nil interface map in canonical document form. -/
def canonicalIMapOpt : Option IMap → Prop
  | none => True
  | some m => m ≠ [] ∧ sortEntries m = m

instance : (o : Option IMap) → Decidable (canonicalIMapOpt o)
  | none => isTrue trivial
  | some _ => inferInstanceAs (Decidable (_ ∧ _))

/-- A possibly-nil slice of interface maps in canonical document form: nil or
non-empty, with every element's entries in sorted key order. -/
def canonicalIMapListOpt : Option (List IMap) → Prop
  | none => True
  | some l => l ≠ [] ∧ ∀ m ∈ l, sortEntries m = m

instance : (o : Option (List IMap)) → Decidable (canonicalIMapListOpt o)
  | none => isTrue trivial
  | some _ => inferInstanceAs (Decidable (_ ∧ _))

/-- An optional search config in canonical document form: its add-on slice is
nil or non-empty. -/
def canonicalSearchOpt : Option SearchEngineConfig → Prop
  | none => True
  | some c => canonicalStrListOpt c.searchAddOns

instance : (o : Option SearchEngineConfig) → Decidable (canonicalSearchOpt o)
  | none => isTrue trivial
  | some c => inferInstanceAs (Decidable (canonicalStrListOpt c.searchAddOns))

/-- An agent in canonical document form: each optional passthrough map or
slice is nil or non-empty, maps with sorted keys. -/
def canonicalAgent (a : Agent) : Prop :=
  canonicalIMapOpt a.connectorDefinition ∧ canonicalIMapOpt a.additionalAgentProperties ∧
  canonicalStrMapOpt a.annotations ∧ canonicalStrMapOpt a.labels ∧
  canonicalIMapListOpt a.environmentConfigurations ∧
  canonicalIMapOpt a.agentMonitoringState ∧ canonicalStrListOpt a.capabilities ∧
  canonicalIMapOpt a.metadata

instance (a : Agent) : Decidable (canonicalAgent a) :=
  inferInstanceAs (Decidable (_ ∧ _))

/-- An optional agents slice in canonical document form. -/
def canonicalAgentsOpt : Option (List Agent) → Prop
  | none => True
  | some l => l ≠ [] ∧ ∀ a ∈ l, canonicalAgent a

instance : (o : Option (List Agent)) → Decidable (canonicalAgentsOpt o)
  | none => isTrue trivial
  | some _ => inferInstanceAs (Decidable (_ ∧ _))

/-- A snapshot in canonical document form: every optional map and slice — the
data-store-ID list, the common-config and feature maps, the search add-on
list, the agents slice, and every agent's optional passthrough fields — is
nil or non-empty, maps in sorted key order.  Serialization collapses an empty
non-nil map or slice to an absent key, which reloads as nil, so only
canonical snapshots can round-trip unchanged. -/
def canonicalSnapshot (s : EngineSnapshot) : Prop :=
  canonicalStrListOpt s.engine.dataStoreIds ∧
  canonicalIMapOpt s.engine.commonConfig ∧
  canonicalStrMapOpt s.engine.features ∧
  canonicalSearchOpt s.engine.searchConfig ∧
  canonicalAgentsOpt s.agents

instance (s : EngineSnapshot) : Decidable (canonicalSnapshot s) :=
  inferInstanceAs (Decidable (_ ∧ _))

theorem decodeSearchConfig_roundtrip (c : SearchEngineConfig)
    (hA : canonicalStrListOpt c.searchAddOns) :
    decodeSearchConfig (marshalSearchConfig c) = some c := by
  obtain ⟨tier, addOns⟩ := c
  rcases addOns with _ | l
  · by_cases hv : tier = "" <;>
      simp [marshalSearchConfig, decodeSearchConfig, getStr, getStrListOpt, hv,
        getField_putStr_eval, getField_putStrList_last_eval]
  · have hl : l.isEmpty = false := by
      rcases l with _ | _
      · exact absurd rfl hA
      · rfl
    by_cases hv : tier = "" <;>
      simp [marshalSearchConfig, decodeSearchConfig, getStr, getStrListOpt, hv, hl,
        getField_putStr_eval, getField_putStrList_last_eval, List.mapM, mapM_loop_str]

theorem engineFields_displayName (e : EngineConfigSnapshot) :
    getStr (engineFields e) "displayName" = some e.displayName := by
  simp [engineFields, getStr, getField_reqStr_eval]

theorem engineFields_solutionType (e : EngineConfigSnapshot) :
    getStr (engineFields e) "solutionType" = some e.solutionType := by
  simp [engineFields, getStr, getField_reqStr_eval]

theorem engineFields_industryVertical (e : EngineConfigSnapshot) :
    getStr (engineFields e) "industryVertical" = some e.industryVertical := by
  simp [engineFields, getStr, getField_reqStr_eval]

theorem engineFields_appType (e : EngineConfigSnapshot) :
    getStr (engineFields e) "appType" = some e.appType := by
  simp [engineFields, getStr, getField_reqStr_eval]

theorem engineFields_dataStoreIds (e : EngineConfigSnapshot)
    (h : canonicalStrListOpt e.dataStoreIds) :
    getStrListOpt (engineFields e) "dataStoreIds" = some e.dataStoreIds := by
  rcases hm : e.dataStoreIds with _ | xs
  · simp [engineFields, getStrListOpt, hm, getField_reqStr_eval, getField_putStrList_eval,
      getField_putIMap_eval, getField_putSMap_eval, getField_putSearch_last_eval]
  · rw [hm] at h
    have hxs : xs.isEmpty = false := by
      rcases xs with _ | _
      · exact absurd rfl h
      · rfl
    simp [engineFields, getStrListOpt, hm, hxs, getField_reqStr_eval,
      getField_putStrList_eval, List.mapM, mapM_loop_str]

theorem engineFields_commonConfig (e : EngineConfigSnapshot)
    (h : canonicalIMapOpt e.commonConfig) :
    getIMap (engineFields e) "commonConfig" = some e.commonConfig := by
  rcases hm : e.commonConfig with _ | mm
  · simp [engineFields, getIMap, hm, getField_reqStr_eval, getField_putStrList_eval,
      getField_putIMap_eval, getField_putSMap_eval, getField_putSearch_last_eval]
  · rw [hm] at h
    obtain ⟨hne, hsort⟩ := h
    have hmm : mm.isEmpty = false := by
      rcases mm with _ | _
      · exact absurd rfl hne
      · rfl
    simp [engineFields, getIMap, hm, hmm, hsort, getField_reqStr_eval,
      getField_putStrList_eval, getField_putIMap_eval, List.mapM, mapM_loop_ifacePair]

theorem engineFields_features (e : EngineConfigSnapshot)
    (h : canonicalStrMapOpt e.features) :
    getStrMap (engineFields e) "features" = some e.features := by
  rcases hm : e.features with _ | mm
  · simp [engineFields, getStrMap, hm, getField_reqStr_eval, getField_putStrList_eval,
      getField_putIMap_eval, getField_putSMap_eval, getField_putSearch_last_eval]
  · rw [hm] at h
    obtain ⟨hne, hsort⟩ := h
    have hmm : mm.isEmpty = false := by
      rcases mm with _ | _
      · exact absurd rfl hne
      · rfl
    simp [engineFields, getStrMap, hm, hmm, hsort, getField_reqStr_eval,
      getField_putStrList_eval, getField_putIMap_eval, getField_putSMap_eval,
      List.mapM, mapM_loop_strPair]

theorem engineFields_searchConfig (e : EngineConfigSnapshot) :
    getField (engineFields e) "searchConfig" = e.searchConfig.map marshalSearchConfig := by
  rcases hm : e.searchConfig with _ | c <;>
    simp [engineFields, hm, getField_reqStr_eval, getField_putStrList_eval,
      getField_putIMap_eval, getField_putSMap_eval, getField_putSearch_last_eval]

theorem decodeEngineConfig_roundtrip (e : EngineConfigSnapshot)
    (hD : canonicalStrListOpt e.dataStoreIds) (hC : canonicalIMapOpt e.commonConfig)
    (hF : canonicalStrMapOpt e.features) (hS : canonicalSearchOpt e.searchConfig) :
    decodeEngineConfig (marshalEngineConfig e) = some e := by
  obtain ⟨dn, st, iv, ap, ds, cc, ft, sc⟩ := e
  rcases sc with _ | scv
  · simp [marshalEngineConfig, decodeEngineConfig, engineFields_displayName,
      engineFields_solutionType, engineFields_industryVertical, engineFields_appType,
      engineFields_dataStoreIds _ hD, engineFields_commonConfig _ hC,
      engineFields_features _ hF, engineFields_searchConfig]
  · simp [marshalEngineConfig, decodeEngineConfig, engineFields_displayName,
      engineFields_solutionType, engineFields_industryVertical, engineFields_appType,
      engineFields_dataStoreIds _ hD, engineFields_commonConfig _ hC,
      engineFields_features _ hF, engineFields_searchConfig,
      decodeSearchConfig_roundtrip scv hS]

theorem agentFields_name (a : Agent) : getStr (agentFields a) "name" = some a.name := by
  by_cases hv : a.name = "" <;>
    simp [agentFields, getStr, hv, getField_putStr_eval, getField_putIcon_eval,
      getField_putDdef_eval, getField_putIMap_eval, getField_putSMap_eval,
      getField_putIMapList_eval, getField_putStrList_eval, getField_putIMap_last_eval]

theorem agentFields_displayName (a : Agent) :
    getStr (agentFields a) "displayName" = some a.displayName := by
  by_cases hv : a.displayName = "" <;>
    simp [agentFields, getStr, hv, getField_putStr_eval, getField_putIcon_eval,
      getField_putDdef_eval, getField_putIMap_eval, getField_putSMap_eval,
      getField_putIMapList_eval, getField_putStrList_eval, getField_putIMap_last_eval]

theorem agentFields_description (a : Agent) :
    getStr (agentFields a) "description" = some a.description := by
  by_cases hv : a.description = "" <;>
    simp [agentFields, getStr, hv, getField_putStr_eval, getField_putIcon_eval,
      getField_putDdef_eval, getField_putIMap_eval, getField_putSMap_eval,
      getField_putIMapList_eval, getField_putStrList_eval, getField_putIMap_last_eval]

theorem agentFields_icon (a : Agent) : getIcon (agentFields a) = some a.icon := by
  rcases hi : a.icon with _ | i
  · simp [agentFields, getIcon, hi, getField_putStr_eval, getField_putIcon_eval,
      getField_putDdef_eval, getField_putIMap_eval, getField_putSMap_eval,
      getField_putIMapList_eval, getField_putStrList_eval, getField_putIMap_last_eval]
  · obtain ⟨u, c⟩ := i
    by_cases hu : u = "" <;> by_cases hc : c = "" <;>
      simp [agentFields, getIcon, hi, getStr, hu, hc, getField_putStr_eval,
        getField_putStr_last_eval, getField_putIcon_eval, getField_putDdef_eval,
        getField_putIMap_eval, getField_putSMap_eval, getField_putIMapList_eval,
        getField_putStrList_eval, getField_putIMap_last_eval]

theorem agentFields_ddef (a : Agent) :
    getDdef (agentFields a) = some a.dialogflowAgentDefinition := by
  rcases hd : a.dialogflowAgentDefinition with _ | d
  · simp [agentFields, getDdef, hd, getField_putStr_eval, getField_putIcon_eval,
      getField_putDdef_eval, getField_putIMap_eval, getField_putSMap_eval,
      getField_putIMapList_eval, getField_putStrList_eval, getField_putIMap_last_eval]
  · obtain ⟨link⟩ := d
    by_cases hl : link = "" <;>
      simp [agentFields, getDdef, hd, getStr, hl, getField_putStr_eval,
        getField_putStr_last_eval, getField_putIcon_eval, getField_putDdef_eval,
        getField_putIMap_eval, getField_putSMap_eval, getField_putIMapList_eval,
        getField_putStrList_eval, getField_putIMap_last_eval]

theorem agentFields_reasoningEngine (a : Agent) :
    getStr (agentFields a) "reasoningEngine" = some a.reasoningEngine := by
  by_cases hv : a.reasoningEngine = "" <;>
    simp [agentFields, getStr, hv, getField_putStr_eval, getField_putIcon_eval,
      getField_putDdef_eval, getField_putIMap_eval, getField_putSMap_eval,
      getField_putIMapList_eval, getField_putStrList_eval, getField_putIMap_last_eval]

theorem agentFields_createTime (a : Agent) :
    getStr (agentFields a) "createTime" = some a.createTime := by
  by_cases hv : a.createTime = "" <;>
    simp [agentFields, getStr, hv, getField_putStr_eval, getField_putIcon_eval,
      getField_putDdef_eval, getField_putIMap_eval, getField_putSMap_eval,
      getField_putIMapList_eval, getField_putStrList_eval, getField_putIMap_last_eval]

theorem agentFields_updateTime (a : Agent) :
    getStr (agentFields a) "updateTime" = some a.updateTime := by
  by_cases hv : a.updateTime = "" <;>
    simp [agentFields, getStr, hv, getField_putStr_eval, getField_putIcon_eval,
      getField_putDdef_eval, getField_putIMap_eval, getField_putSMap_eval,
      getField_putIMapList_eval, getField_putStrList_eval, getField_putIMap_last_eval]

theorem agentFields_connectorDefinition (a : Agent)
    (h : canonicalIMapOpt a.connectorDefinition) :
    getIMap (agentFields a) "connectorDefinition" = some a.connectorDefinition := by
  rcases hm : a.connectorDefinition with _ | mm
  · simp [agentFields, getIMap, hm, getField_putStr_eval, getField_putIcon_eval,
      getField_putDdef_eval, getField_putIMap_eval, getField_putSMap_eval,
      getField_putIMapList_eval, getField_putStrList_eval, getField_putIMap_last_eval]
  · rw [hm] at h
    obtain ⟨hne, hsort⟩ := h
    have hmm : mm.isEmpty = false := by
      rcases mm with _ | _
      · exact absurd rfl hne
      · rfl
    simp [agentFields, getIMap, hm, hmm, hsort, getField_putStr_eval, getField_putIcon_eval,
      getField_putDdef_eval, getField_putIMap_eval, List.mapM, mapM_loop_ifacePair]

theorem agentFields_additionalAgentProperties (a : Agent)
    (h : canonicalIMapOpt a.additionalAgentProperties) :
    getIMap (agentFields a) "additionalAgentProperties" =
      some a.additionalAgentProperties := by
  rcases hm : a.additionalAgentProperties with _ | mm
  · simp [agentFields, getIMap, hm, getField_putStr_eval, getField_putIcon_eval,
      getField_putDdef_eval, getField_putIMap_eval, getField_putSMap_eval,
      getField_putIMapList_eval, getField_putStrList_eval, getField_putIMap_last_eval]
  · rw [hm] at h
    obtain ⟨hne, hsort⟩ := h
    have hmm : mm.isEmpty = false := by
      rcases mm with _ | _
      · exact absurd rfl hne
      · rfl
    simp [agentFields, getIMap, hm, hmm, hsort, getField_putStr_eval, getField_putIcon_eval,
      getField_putDdef_eval, getField_putIMap_eval, List.mapM, mapM_loop_ifacePair]

theorem agentFields_annotationMap (a : Agent) (h : canonicalStrMapOpt a.annotations) :
    getStrMap (agentFields a) "annotations" = some a.annotations := by
  rcases hm : a.annotations with _ | mm
  · simp [agentFields, getStrMap, hm, getField_putStr_eval, getField_putIcon_eval,
      getField_putDdef_eval, getField_putIMap_eval, getField_putSMap_eval,
      getField_putIMapList_eval, getField_putStrList_eval, getField_putIMap_last_eval]
  · rw [hm] at h
    obtain ⟨hne, hsort⟩ := h
    have hmm : mm.isEmpty = false := by
      rcases mm with _ | _
      · exact absurd rfl hne
      · rfl
    simp [agentFields, getStrMap, hm, hmm, hsort, getField_putStr_eval, getField_putIcon_eval,
      getField_putDdef_eval, getField_putIMap_eval, getField_putSMap_eval,
      List.mapM, mapM_loop_strPair]

theorem agentFields_labelMap (a : Agent) (h : canonicalStrMapOpt a.labels) :
    getStrMap (agentFields a) "labels" = some a.labels := by
  rcases hm : a.labels with _ | mm
  · simp [agentFields, getStrMap, hm, getField_putStr_eval, getField_putIcon_eval,
      getField_putDdef_eval, getField_putIMap_eval, getField_putSMap_eval,
      getField_putIMapList_eval, getField_putStrList_eval, getField_putIMap_last_eval]
  · rw [hm] at h
    obtain ⟨hne, hsort⟩ := h
    have hmm : mm.isEmpty = false := by
      rcases mm with _ | _
      · exact absurd rfl hne
      · rfl
    simp [agentFields, getStrMap, hm, hmm, hsort, getField_putStr_eval, getField_putIcon_eval,
      getField_putDdef_eval, getField_putIMap_eval, getField_putSMap_eval,
      List.mapM, mapM_loop_strPair]

theorem mapM_loop_imaps (xs : List IMap) :
    ∀ acc : List IMap, (∀ m ∈ xs, sortEntries m = m) →
      List.mapM.loop decodeIMapEntries
        (xs.map fun m => Json.obj ((sortEntries m).map fun p => (p.1, p.2.toJson))) acc =
        some (acc.reverse ++ xs) := by
  induction xs with
  | nil => intro acc _; simp [List.mapM.loop]
  | cons x rest ih =>
    intro acc h
    have hx := h x (List.mem_cons_self x rest)
    have hrest : ∀ m ∈ rest, sortEntries m = m := fun m hm => h m (List.mem_cons_of_mem x hm)
    simp [List.mapM.loop, decodeIMapEntries, hx, mapM_loop_ifacePair, ih _ hrest]

theorem agentFields_environmentConfigurations (a : Agent)
    (h : canonicalIMapListOpt a.environmentConfigurations) :
    getIMapList (agentFields a) "environmentConfigurations" =
      some a.environmentConfigurations := by
  rcases hm : a.environmentConfigurations with _ | xs
  · simp [agentFields, getIMapList, hm, getField_putStr_eval, getField_putIcon_eval,
      getField_putDdef_eval, getField_putIMap_eval, getField_putSMap_eval,
      getField_putIMapList_eval, getField_putStrList_eval, getField_putIMap_last_eval]
  · rw [hm] at h
    obtain ⟨hne, hsorts⟩ := h
    have hxs : xs.isEmpty = false := by
      rcases xs with _ | _
      · exact absurd rfl hne
      · rfl
    simp [agentFields, getIMapList, hm, hxs, getField_putStr_eval, getField_putIcon_eval,
      getField_putDdef_eval, getField_putIMap_eval, getField_putSMap_eval,
      getField_putIMapList_eval, List.mapM, mapM_loop_imaps xs [] hsorts]

theorem agentFields_agentMonitoringState (a : Agent)
    (h : canonicalIMapOpt a.agentMonitoringState) :
    getIMap (agentFields a) "agentMonitoringState" = some a.agentMonitoringState := by
  rcases hm : a.agentMonitoringState with _ | mm
  · simp [agentFields, getIMap, hm, getField_putStr_eval, getField_putIcon_eval,
      getField_putDdef_eval, getField_putIMap_eval, getField_putSMap_eval,
      getField_putIMapList_eval, getField_putStrList_eval, getField_putIMap_last_eval]
  · rw [hm] at h
    obtain ⟨hne, hsort⟩ := h
    have hmm : mm.isEmpty = false := by
      rcases mm with _ | _
      · exact absurd rfl hne
      · rfl
    simp [agentFields, getIMap, hm, hmm, hsort, getField_putStr_eval, getField_putIcon_eval,
      getField_putDdef_eval, getField_putIMap_eval, getField_putSMap_eval,
      getField_putIMapList_eval, List.mapM, mapM_loop_ifacePair]

theorem agentFields_capabilities (a : Agent) (h : canonicalStrListOpt a.capabilities) :
    getStrListOpt (agentFields a) "capabilities" = some a.capabilities := by
  rcases hm : a.capabilities with _ | xs
  · simp [agentFields, getStrListOpt, hm, getField_putStr_eval, getField_putIcon_eval,
      getField_putDdef_eval, getField_putIMap_eval, getField_putSMap_eval,
      getField_putIMapList_eval, getField_putStrList_eval, getField_putIMap_last_eval]
  · rw [hm] at h
    have hxs : xs.isEmpty = false := by
      rcases xs with _ | _
      · exact absurd rfl h
      · rfl
    simp [agentFields, getStrListOpt, hm, hxs, getField_putStr_eval, getField_putIcon_eval,
      getField_putDdef_eval, getField_putIMap_eval, getField_putSMap_eval,
      getField_putIMapList_eval, getField_putStrList_eval, List.mapM, mapM_loop_str]

theorem agentFields_metadataMap (a : Agent) (h : canonicalIMapOpt a.metadata) :
    getIMap (agentFields a) "metadata" = some a.metadata := by
  rcases hm : a.metadata with _ | mm
  · simp [agentFields, getIMap, hm, getField_putStr_eval, getField_putIcon_eval,
      getField_putDdef_eval, getField_putIMap_eval, getField_putSMap_eval,
      getField_putIMapList_eval, getField_putStrList_eval, getField_putIMap_last_eval]
  · rw [hm] at h
    obtain ⟨hne, hsort⟩ := h
    have hmm : mm.isEmpty = false := by
      rcases mm with _ | _
      · exact absurd rfl hne
      · rfl
    simp [agentFields, getIMap, hm, hmm, hsort, getField_putStr_eval, getField_putIcon_eval,
      getField_putDdef_eval, getField_putIMap_eval, getField_putSMap_eval,
      getField_putIMapList_eval, getField_putStrList_eval, getField_putIMap_last_eval,
      List.mapM, mapM_loop_ifacePair]

theorem decodeAgent_roundtrip (a : Agent) (h : canonicalAgent a) :
    decodeAgent (marshalAgent a) = some a := by
  obtain ⟨h1, h2, h3, h4, h5, h6, h7, h8⟩ := h
  simp [marshalAgent, decodeAgent, agentFields_name, agentFields_displayName,
    agentFields_description, agentFields_icon, agentFields_ddef, agentFields_reasoningEngine,
    agentFields_createTime, agentFields_updateTime, agentFields_connectorDefinition a h1,
    agentFields_additionalAgentProperties a h2, agentFields_annotationMap a h3,
    agentFields_labelMap a h4, agentFields_environmentConfigurations a h5,
    agentFields_agentMonitoringState a h6, agentFields_capabilities a h7,
    agentFields_metadataMap a h8]

theorem mapM_loop_agents (as : List Agent) :
    ∀ acc : List Agent, (∀ a ∈ as, canonicalAgent a) →
      List.mapM.loop decodeAgent (as.map marshalAgent) acc = some (acc.reverse ++ as) := by
  induction as with
  | nil => intro acc _; simp [List.mapM.loop]
  | cons a rest ih =>
    intro acc h
    have ha := h a (List.mem_cons_self a rest)
    have hrest : ∀ x ∈ rest, canonicalAgent x := fun x hx => h x (List.mem_cons_of_mem a hx)
    simp [List.mapM.loop, decodeAgent_roundtrip a ha, ih _ hrest]

/-- C7 (amended): loading the serialized document of a canonical snapshot —
one whose optional maps and slices (data-store-ID list, common config,
features, search add-ons, agents, and every agent's passthrough fields) are
nil or non-empty, maps with sorted keys — recovers the snapshot exactly, for
all values of the metadata fields, engine-config fields and the agents list. -/
theorem LoadEngineSnapshot_roundtrip (s : EngineSnapshot) (h : canonicalSnapshot s) :
    LoadEngineSnapshot (MarshalJSONBytes s) = some s := by
  obtain ⟨hD, hC, hF, hS, hA⟩ := h
  obtain ⟨md, eng, ags⟩ := s
  rcases ags with _ | l
  · simp [MarshalJSONBytes, LoadEngineSnapshot, getField, List.lookup,
      decodeMetadata_roundtrip, decodeEngineConfig_roundtrip eng hD hC hF hS]
  · obtain ⟨hne, hall⟩ := hA
    have hl : l.isEmpty = false := by
      rcases l with _ | _
      · exact absurd rfl hne
      · rfl
    simp [MarshalJSONBytes, LoadEngineSnapshot, getField, List.lookup, hl,
      decodeMetadata_roundtrip, decodeEngineConfig_roundtrip eng hD hC hF hS,
      List.mapM, mapM_loop_agents l [] hall]

/-- A snapshot carrying an empty non-nil data-store-ID slice, an empty
non-nil feature map and an empty non-nil agents slice. -/
def c7bad : EngineSnapshot :=
  ⟨⟨"v1", "", "", "", "", "", "", "", "", ""⟩,
   ⟨"", "", "", "", some [], none, some [], none⟩, some []⟩

/-- C7 fails on the code at the edges of omitempty: an empty non-nil map or
slice — here the feature map, the data-store-ID slice and the agents slice —
is dropped by MarshalJSONBytes and reloads as nil, so
LoadEngineSnapshot(MarshalJSONBytes(S)) differs from S. -/
theorem LoadEngineSnapshot_not_id :
    LoadEngineSnapshot (MarshalJSONBytes c7bad) ≠ some c7bad ∧
    LoadEngineSnapshot (MarshalJSONBytes c7bad) =
      some ⟨⟨"v1", "", "", "", "", "", "", "", "", ""⟩,
        ⟨"", "", "", "", none, none, none, none⟩, none⟩ := by decide

/-- A fully-populated canonical snapshot, its agent carrying every
passthrough field. -/
def c7good : EngineSnapshot :=
  ⟨⟨"v1", "projects/p/locations/l/collections/c/engines/eng", "eng", "p", "l", "c",
     "2024-01-01T00:00:00Z", "Display", "Desc", "Notes"⟩,
   ⟨"Display", "SOLUTION_TYPE_SEARCH", "GENERIC", "APP_TYPE_INTRANET", some ["ds1", "ds2"],
     some [("companyName", .str "ACME"), ("region", .str "eu")],
     some [("agent-gallery", "ON"), ("prompt-gallery", "OFF")],
     some ⟨"SEARCH_TIER_ENTERPRISE", some ["addon1"]⟩⟩,
   some [⟨"projects/p/agents/srv", "Helper", "does things", some ⟨"gs://icon", "blob"⟩,
     some ⟨"projects/p/locations/l/agents/123"⟩, "projects/p/re/1",
     "2024-01-01T00:00:00Z", "2024-01-02T00:00:00Z",
     some [("kind", .str "connector")], some [("prop", .boolean true)],
     some [("team", "a")], some [("env", "prod")],
     some [[("cfg", .str "x")]], some [("state", .str "ok")],
     some ["chat"], some [("note", .str "y")]⟩]⟩

/-- Witness for the amended C7 at a fully-populated canonical snapshot. -/
theorem LoadEngineSnapshot_roundtrip_witness :
    canonicalSnapshot c7good ∧ LoadEngineSnapshot (MarshalJSONBytes c7good) = some c7good :=
  ⟨by decide, LoadEngineSnapshot_roundtrip c7good (by decide)⟩

/-! ## Claim C3: deep copy versus aliasing in capture -/

theorem getD_set_ne {α : Type} (l : List α) (i j : Nat) (v d : α) (h : i ≠ j) :
    (l.set i v).getD j d = l.getD j d := by
  simp [List.getD, List.getElem?_set_ne h]

theorem captureEngineConfig_slices (st : HStore) (e : HEngine) :
    (captureEngineConfig st e).1.slices = st.slices ++ [st.readSlice e.dataStoreIds] := by
  rcases hcc : e.commonConfig with _ | ca <;> rcases hft : e.features with _ | fa <;>
    simp [captureEngineConfig, hcc, hft]

theorem captureEngineConfig_cfgs (st : HStore) (e : HEngine) :
    (captureEngineConfig st e).1.cfgs = st.cfgs := by
  rcases hcc : e.commonConfig with _ | ca <;> rcases hft : e.features with _ | fa <;>
    simp [captureEngineConfig, hcc, hft]

theorem captureEngineConfig_icons (st : HStore) (e : HEngine) :
    (captureEngineConfig st e).1.icons = st.icons := by
  rcases hcc : e.commonConfig with _ | ca <;> rcases hft : e.features with _ | fa <;>
    simp [captureEngineConfig, hcc, hft]

theorem captureEngineConfig_ddefs (st : HStore) (e : HEngine) :
    (captureEngineConfig st e).1.ddefs = st.ddefs := by
  rcases hcc : e.commonConfig with _ | ca <;> rcases hft : e.features with _ | fa <;>
    simp [captureEngineConfig, hcc, hft]

theorem captureEngineConfig_smaps_ext (st : HStore) (e : HEngine) :
    ∃ ext, (captureEngineConfig st e).1.smaps = st.smaps ++ ext := by
  rcases hcc : e.commonConfig with _ | ca <;> rcases hft : e.features with _ | fa
  · exact ⟨[], by simp [captureEngineConfig, hcc, hft]⟩
  · exact ⟨[st.readSMap fa], by simp [captureEngineConfig, hcc, hft, HStore.readSMap]⟩
  · exact ⟨[], by simp [captureEngineConfig, hcc, hft]⟩
  · exact ⟨[st.readSMap fa], by simp [captureEngineConfig, hcc, hft, HStore.readSMap]⟩

theorem captureEngineConfig_imaps_ext (st : HStore) (e : HEngine) :
    ∃ ext, (captureEngineConfig st e).1.imaps = st.imaps ++ ext := by
  rcases hcc : e.commonConfig with _ | ca <;> rcases hft : e.features with _ | fa
  · exact ⟨[], by simp [captureEngineConfig, hcc, hft]⟩
  · exact ⟨[], by simp [captureEngineConfig, hcc, hft]⟩
  · exact ⟨[st.readIMap ca], by simp [captureEngineConfig, hcc, hft, HStore.readIMap]⟩
  · exact ⟨[st.readIMap ca], by simp [captureEngineConfig, hcc, hft, HStore.readIMap]⟩

theorem captureEngineConfig_dsAddr (st : HStore) (e : HEngine) :
    (captureEngineConfig st e).2.dataStoreIds = st.slices.length := by
  rcases hcc : e.commonConfig with _ | ca <;> rcases hft : e.features with _ | fa <;>
    simp [captureEngineConfig, hcc, hft]

theorem captureEngineConfig_ccAddr (st : HStore) (e : HEngine) :
    (captureEngineConfig st e).2.commonConfig = none ∨
      (captureEngineConfig st e).2.commonConfig = some st.imaps.length := by
  rcases hcc : e.commonConfig with _ | ca <;> rcases hft : e.features with _ | fa <;>
    simp [captureEngineConfig, hcc, hft]

theorem captureEngineConfig_ftAddr (st : HStore) (e : HEngine) :
    (captureEngineConfig st e).2.features = none ∨
      (captureEngineConfig st e).2.features = some st.smaps.length := by
  rcases hcc : e.commonConfig with _ | ca <;> rcases hft : e.features with _ | fa <;>
    simp [captureEngineConfig, hcc, hft]

theorem captureEngineConfig_searchCfg (st : HStore) (e : HEngine) :
    (captureEngineConfig st e).2.searchConfig = e.searchEngineConfig := by
  rcases hcc : e.commonConfig with _ | ca <;> rcases hft : e.features with _ | fa <;>
    simp [captureEngineConfig, hcc, hft]

theorem cloneAgentH_pres (st : HStore) (a : HAgent) :
    (cloneAgentH st a).1.slices = st.slices ∧ (cloneAgentH st a).1.smaps = st.smaps ∧
    (cloneAgentH st a).1.imaps = st.imaps ∧ (cloneAgentH st a).1.cfgs = st.cfgs := by
  rcases hic : a.icon with _ | i <;> rcases hdd : a.ddef with _ | d <;>
    simp [cloneAgentH, hic, hdd]

theorem cloneAgentsH_pres (as : List HAgent) : ∀ st : HStore,
    (cloneAgentsH st as).1.slices = st.slices ∧ (cloneAgentsH st as).1.smaps = st.smaps ∧
    (cloneAgentsH st as).1.imaps = st.imaps ∧ (cloneAgentsH st as).1.cfgs = st.cfgs := by
  induction as with
  | nil => intro st; exact ⟨rfl, rfl, rfl, rfl⟩
  | cons a rest ih =>
    intro st
    obtain ⟨h1, h2, h3, h4⟩ := ih (cloneAgentH st a).1
    obtain ⟨g1, g2, g3, g4⟩ := cloneAgentH_pres st a
    refine ⟨?_, ?_, ?_, ?_⟩ <;>
      simp [cloneAgentsH, h1, h2, h3, h4, g1, g2, g3, g4]

theorem cloneAgentH_icons_ext (st : HStore) (a : HAgent) :
    ∃ ext, (cloneAgentH st a).1.icons = st.icons ++ ext := by
  rcases hic : a.icon with _ | i <;> rcases hdd : a.ddef with _ | d
  · exact ⟨[], by simp [cloneAgentH, hic, hdd]⟩
  · exact ⟨[], by simp [cloneAgentH, hic, hdd]⟩
  · exact ⟨[st.readIcon i], by simp [cloneAgentH, hic, hdd, HStore.readIcon]⟩
  · exact ⟨[st.readIcon i], by simp [cloneAgentH, hic, hdd, HStore.readIcon]⟩

theorem cloneAgentH_ddefs_ext (st : HStore) (a : HAgent) :
    ∃ ext, (cloneAgentH st a).1.ddefs = st.ddefs ++ ext := by
  rcases hic : a.icon with _ | i <;> rcases hdd : a.ddef with _ | d
  · exact ⟨[], by simp [cloneAgentH, hic, hdd]⟩
  · exact ⟨[st.readDdef d], by simp [cloneAgentH, hic, hdd, HStore.readDdef]⟩
  · exact ⟨[], by simp [cloneAgentH, hic, hdd]⟩
  · exact ⟨[st.readDdef d], by simp [cloneAgentH, hic, hdd, HStore.readDdef]⟩

theorem cloneAgentsH_icons_ext (as : List HAgent) : ∀ st : HStore,
    ∃ ext, (cloneAgentsH st as).1.icons = st.icons ++ ext := by
  induction as with
  | nil => intro st; exact ⟨[], by simp [cloneAgentsH]⟩
  | cons a rest ih =>
    intro st
    obtain ⟨e1, he1⟩ := cloneAgentH_icons_ext st a
    obtain ⟨e2, he2⟩ := ih (cloneAgentH st a).1
    refine ⟨e1 ++ e2, ?_⟩
    simp [cloneAgentsH, he2, he1]

theorem cloneAgentsH_ddefs_ext (as : List HAgent) : ∀ st : HStore,
    ∃ ext, (cloneAgentsH st as).1.ddefs = st.ddefs ++ ext := by
  induction as with
  | nil => intro st; exact ⟨[], by simp [cloneAgentsH]⟩
  | cons a rest ih =>
    intro st
    obtain ⟨e1, he1⟩ := cloneAgentH_ddefs_ext st a
    obtain ⟨e2, he2⟩ := ih (cloneAgentH st a).1
    refine ⟨e1 ++ e2, ?_⟩
    simp [cloneAgentsH, he2, he1]

theorem cloneAgentsH_read_setIcon (as : List HAgent) :
    ∀ (st : HStore) (j : Nat) (v : AgentIcon), j < st.icons.length →
    ((cloneAgentsH st as).2).map (readAgentH ((cloneAgentsH st as).1.setIcon j v)) =
      ((cloneAgentsH st as).2).map (readAgentH (cloneAgentsH st as).1) := by
  induction as with
  | nil => intro st j v hj; rfl
  | cons a rest ih =>
    intro st j v hj
    have hmono : st.icons.length ≤ (cloneAgentH st a).1.icons.length := by
      obtain ⟨ext, hext⟩ := cloneAgentH_icons_ext st a
      rw [hext]
      simp
    have htail := ih (cloneAgentH st a).1 j v (lt_of_lt_of_le hj hmono)
    have hne : j ≠ st.icons.length := Nat.ne_of_lt hj
    have hhead : readAgentH ((cloneAgentsH (cloneAgentH st a).1 rest).1.setIcon j v)
        (cloneAgentH st a).2 =
        readAgentH (cloneAgentsH (cloneAgentH st a).1 rest).1 (cloneAgentH st a).2 := by
      rcases hic : a.icon with _ | i <;> rcases hdd : a.ddef with _ | d <;>
        simp [cloneAgentH, hic, hdd, readAgentH, HStore.setIcon, HStore.readIcon,
          HStore.readDdef, HStore.readIMap, HStore.readSMap, HStore.readLMap,
          HStore.readSlice, getD_set_ne, hne]
    show readAgentH ((cloneAgentsH (cloneAgentH st a).1 rest).1.setIcon j v)
          (cloneAgentH st a).2 ::
        List.map (readAgentH ((cloneAgentsH (cloneAgentH st a).1 rest).1.setIcon j v))
          (cloneAgentsH (cloneAgentH st a).1 rest).2 =
      readAgentH (cloneAgentsH (cloneAgentH st a).1 rest).1 (cloneAgentH st a).2 ::
        List.map (readAgentH (cloneAgentsH (cloneAgentH st a).1 rest).1)
          (cloneAgentsH (cloneAgentH st a).1 rest).2
    rw [hhead, htail]

theorem cloneAgentsH_read_setDdef (as : List HAgent) :
    ∀ (st : HStore) (j : Nat) (v : DialogflowAgentDefinition), j < st.ddefs.length →
    ((cloneAgentsH st as).2).map (readAgentH ((cloneAgentsH st as).1.setDdef j v)) =
      ((cloneAgentsH st as).2).map (readAgentH (cloneAgentsH st as).1) := by
  induction as with
  | nil => intro st j v hj; rfl
  | cons a rest ih =>
    intro st j v hj
    have hmono : st.ddefs.length ≤ (cloneAgentH st a).1.ddefs.length := by
      obtain ⟨ext, hext⟩ := cloneAgentH_ddefs_ext st a
      rw [hext]
      simp
    have htail := ih (cloneAgentH st a).1 j v (lt_of_lt_of_le hj hmono)
    have hne : j ≠ st.ddefs.length := Nat.ne_of_lt hj
    have hhead : readAgentH ((cloneAgentsH (cloneAgentH st a).1 rest).1.setDdef j v)
        (cloneAgentH st a).2 =
        readAgentH (cloneAgentsH (cloneAgentH st a).1 rest).1 (cloneAgentH st a).2 := by
      rcases hic : a.icon with _ | i <;> rcases hdd : a.ddef with _ | d <;>
        simp [cloneAgentH, hic, hdd, readAgentH, HStore.setDdef, HStore.readIcon,
          HStore.readDdef, HStore.readIMap, HStore.readSMap, HStore.readLMap,
          HStore.readSlice, getD_set_ne, hne]
    show readAgentH ((cloneAgentsH (cloneAgentH st a).1 rest).1.setDdef j v)
          (cloneAgentH st a).2 ::
        List.map (readAgentH ((cloneAgentsH (cloneAgentH st a).1 rest).1.setDdef j v))
          (cloneAgentsH (cloneAgentH st a).1 rest).2 =
      readAgentH (cloneAgentsH (cloneAgentH st a).1 rest).1 (cloneAgentH st a).2 ::
        List.map (readAgentH (cloneAgentsH (cloneAgentH st a).1 rest).1)
          (cloneAgentsH (cloneAgentH st a).1 rest).2
    rw [hhead, htail]

theorem cloneAgentH_shared (st : HStore) (a : HAgent) :
    (cloneAgentH st a).2.shared = a.shared := by
  rcases hic : a.icon with _ | i <;> rcases hdd : a.ddef with _ | d <;>
    simp [cloneAgentH, hic, hdd, HAgent.shared]

theorem cloneAgentsH_shared (as : List HAgent) : ∀ st : HStore,
    (cloneAgentsH st as).2.map HAgent.shared = as.map HAgent.shared := by
  induction as with
  | nil => intro st; rfl
  | cons a rest ih =>
    intro st
    show (cloneAgentH st a).2.shared ::
        ((cloneAgentsH (cloneAgentH st a).1 rest).2.map HAgent.shared) =
      a.shared :: rest.map HAgent.shared
    rw [cloneAgentH_shared, ih]

/-- C3 (amended): CreateEngineSnapshot's explicit clones insulate the
snapshot from later mutation of the source's data-store slice, feature map,
common-config map and the agents' icon and Dialogflow-definition records
(mutating any cell that existed before capture leaves the snapshot's
rendered value unchanged) — but two parts of the snapshot stay aliased to
the source: the nested search-tier configuration, whose address is copied
from the engine (snapshot.go line 131), and every cloned agent's eight
passthrough map/slice fields, which the shallow struct copy of cloneAgents
(line 720) leaves pointing at the source agent's cells. -/
theorem createEngineSnapshotH_clones (st : HStore) (e : HEngine) (agents : List HAgent)
    (j : Nat) :
    (∀ v, j < st.slices.length →
      readConfigSnapshot ((createEngineSnapshotH st e agents).1.setSlice j v)
          (createEngineSnapshotH st e agents).2.1 =
        readConfigSnapshot (createEngineSnapshotH st e agents).1
          (createEngineSnapshotH st e agents).2.1) ∧
    (∀ v, j < st.smaps.length →
      readConfigSnapshot ((createEngineSnapshotH st e agents).1.setSMap j v)
          (createEngineSnapshotH st e agents).2.1 =
        readConfigSnapshot (createEngineSnapshotH st e agents).1
          (createEngineSnapshotH st e agents).2.1) ∧
    (∀ v, j < st.imaps.length →
      readConfigSnapshot ((createEngineSnapshotH st e agents).1.setIMap j v)
          (createEngineSnapshotH st e agents).2.1 =
        readConfigSnapshot (createEngineSnapshotH st e agents).1
          (createEngineSnapshotH st e agents).2.1) ∧
    (∀ v, j < st.icons.length →
      ((createEngineSnapshotH st e agents).2.2).map
          (readAgentH ((createEngineSnapshotH st e agents).1.setIcon j v)) =
        ((createEngineSnapshotH st e agents).2.2).map
          (readAgentH (createEngineSnapshotH st e agents).1)) ∧
    (∀ v, j < st.ddefs.length →
      ((createEngineSnapshotH st e agents).2.2).map
          (readAgentH ((createEngineSnapshotH st e agents).1.setDdef j v)) =
        ((createEngineSnapshotH st e agents).2.2).map
          (readAgentH (createEngineSnapshotH st e agents).1)) ∧
    (createEngineSnapshotH st e agents).2.1.searchConfig = e.searchEngineConfig ∧
    ((createEngineSnapshotH st e agents).2.2).map HAgent.shared =
      agents.map HAgent.shared := by
  obtain ⟨hp1, hp2, hp3, hp4⟩ := cloneAgentsH_pres agents (captureEngineConfig st e).1
  have hsl : (cloneAgentsH (captureEngineConfig st e).1 agents).1.slices =
      st.slices ++ [st.readSlice e.dataStoreIds] := by
    rw [hp1, captureEngineConfig_slices]
  obtain ⟨extS, hextS⟩ := captureEngineConfig_smaps_ext st e
  have hsm : (cloneAgentsH (captureEngineConfig st e).1 agents).1.smaps =
      st.smaps ++ extS := by rw [hp2, hextS]
  obtain ⟨extI, hextI⟩ := captureEngineConfig_imaps_ext st e
  have him : (cloneAgentsH (captureEngineConfig st e).1 agents).1.imaps =
      st.imaps ++ extI := by rw [hp3, hextI]
  refine ⟨?_, ?_, ?_, ?_, ?_, ?_, ?_⟩
  · intro v hj
    have hne : j ≠ st.slices.length := Nat.ne_of_lt hj
    simp only [createEngineSnapshotH, readConfigSnapshot, HStore.setSlice, HStore.readSlice,
      HStore.readSMap, HStore.readIMap, HStore.readCfg]
    simp [hsl, captureEngineConfig_dsAddr, getD_set_ne, hne]
  · intro v hj
    have hne : j ≠ st.smaps.length := Nat.ne_of_lt hj
    rcases captureEngineConfig_ftAddr st e with hft | hft
    · simp only [createEngineSnapshotH, readConfigSnapshot, HStore.setSMap, HStore.readSlice,
        HStore.readSMap, HStore.readIMap, HStore.readCfg]
      simp [hft]
    · simp only [createEngineSnapshotH, readConfigSnapshot, HStore.setSMap, HStore.readSlice,
        HStore.readSMap, HStore.readIMap, HStore.readCfg]
      simp [hft, hsm, getD_set_ne, hne]
  · intro v hj
    have hne : j ≠ st.imaps.length := Nat.ne_of_lt hj
    rcases captureEngineConfig_ccAddr st e with hcc | hcc
    · simp only [createEngineSnapshotH, readConfigSnapshot, HStore.setIMap, HStore.readSlice,
        HStore.readSMap, HStore.readIMap, HStore.readCfg]
      simp [hcc]
    · simp only [createEngineSnapshotH, readConfigSnapshot, HStore.setIMap, HStore.readSlice,
        HStore.readSMap, HStore.readIMap, HStore.readCfg]
      simp [hcc, him, getD_set_ne, hne]
  · intro v hj
    have hj2 : j < (captureEngineConfig st e).1.icons.length := by
      rw [captureEngineConfig_icons]
      exact hj
    exact cloneAgentsH_read_setIcon agents (captureEngineConfig st e).1 j v hj2
  · intro v hj
    have hj2 : j < (captureEngineConfig st e).1.ddefs.length := by
      rw [captureEngineConfig_ddefs]
      exact hj
    exact cloneAgentsH_read_setDdef agents (captureEngineConfig st e).1 j v hj2
  · exact captureEngineConfig_searchCfg st e
  · show (cloneAgentsH (captureEngineConfig st e).1 agents).2.map HAgent.shared =
        agents.map HAgent.shared
    exact cloneAgentsH_shared agents (captureEngineConfig st e).1

/-- The source heap of the C3 counterexample: one data-store slice, one
string-map cell (the agent's labels) and one search-config cell. -/
def c3store : HStore :=
  ⟨[["d1"]], [[("team", "a")]], [], [], [⟨"SEARCH_TIER_STANDARD", none⟩], [], []⟩

/-- The source engine of the C3 counterexample, pointing at those cells. -/
def c3engine : HEngine :=
  ⟨"projects/p/engines/eng", "E", "SOLUTION_TYPE_SEARCH", "GENERIC", "APP_TYPE_INTRANET",
    0, none, none, some 0⟩

/-- The source agent of the C3 counterexample, its labels map at cell 0. -/
def c3agent : HAgent :=
  ⟨"srv", "Helper", "desc", none, none, "re", "", "", none, none, none, some 0, none, none,
    none, none⟩

/-- C3 fails on the code in two places: CreateEngineSnapshot copies the
engine's SearchEngineConfig pointer (snapshot.go line 131) instead of cloning
it, so mutating the source's search config after capture changes the
snapshot's rendered search config; and cloneAgents' shallow struct copy
(line 720) aliases the agent's passthrough maps, so mutating the source
agent's labels map changes the cloned agent. -/
theorem createEngineSnapshotH_aliases_searchConfig :
    (readConfigSnapshot (createEngineSnapshotH c3store c3engine [c3agent]).1
        (createEngineSnapshotH c3store c3engine [c3agent]).2.1).searchConfig =
      some ⟨"SEARCH_TIER_STANDARD", none⟩ ∧
    (readConfigSnapshot
        (((createEngineSnapshotH c3store c3engine [c3agent]).1).setCfg 0
          ⟨"SEARCH_TIER_ENTERPRISE", none⟩)
        (createEngineSnapshotH c3store c3engine [c3agent]).2.1).searchConfig =
      some ⟨"SEARCH_TIER_ENTERPRISE", none⟩ ∧
    (createEngineSnapshotH c3store c3engine [c3agent]).2.1.searchConfig =
      c3engine.searchEngineConfig ∧
    (((createEngineSnapshotH c3store c3engine [c3agent]).2.2).map
        (readAgentH (createEngineSnapshotH c3store c3engine [c3agent]).1)).map
          Agent.labels = [some [("team", "a")]] ∧
    (((createEngineSnapshotH c3store c3engine [c3agent]).2.2).map
        (readAgentH ((createEngineSnapshotH c3store c3engine [c3agent]).1.setSMap 0
          [("team", "b")]))).map Agent.labels = [some [("team", "b")]] := by decide

/-- A richer source heap for the C3 witness. -/
def c3wstore : HStore :=
  ⟨[["d1", "d2"]], [[("agent-gallery", "ON")]], [[("companyName", .str "ACME")]], [],
    [⟨"SEARCH_TIER_STANDARD", none⟩], [⟨"gs://icon", "blob"⟩], [⟨"projects/p/agents/1"⟩]⟩

/-- The source engine of the C3 witness. -/
def c3wengine : HEngine :=
  ⟨"projects/p/engines/eng", "E", "SOLUTION_TYPE_SEARCH", "GENERIC", "APP_TYPE_INTRANET",
    0, some 0, some 0, some 0⟩

/-- A source agent for the C3 witness. -/
def c3wagent : HAgent :=
  ⟨"srv", "Helper", "desc", some 0, some 0, "re", "", "", none, none, none, none, none, none,
    none, none⟩

/-- Witness for the amended C3: overwriting the source's data-store slice
after capture leaves the snapshot's rendered config unchanged, and mutating
the source agent's icon cell leaves the cloned agents unchanged. -/
theorem createEngineSnapshotH_clones_witness :
    readConfigSnapshot ((createEngineSnapshotH c3wstore c3wengine [c3wagent]).1.setSlice 0 ["x"])
        (createEngineSnapshotH c3wstore c3wengine [c3wagent]).2.1 =
      readConfigSnapshot (createEngineSnapshotH c3wstore c3wengine [c3wagent]).1
        (createEngineSnapshotH c3wstore c3wengine [c3wagent]).2.1 ∧
    ((createEngineSnapshotH c3wstore c3wengine [c3wagent]).2.2).map
        (readAgentH ((createEngineSnapshotH c3wstore c3wengine [c3wagent]).1.setIcon 0
          ⟨"gs://other", "y"⟩)) =
      ((createEngineSnapshotH c3wstore c3wengine [c3wagent]).2.2).map
        (readAgentH (createEngineSnapshotH c3wstore c3wengine [c3wagent]).1) :=
  ⟨(createEngineSnapshotH_clones c3wstore c3wengine [c3wagent] 0).1 ["x"] (by decide),
   (createEngineSnapshotH_clones c3wstore c3wengine [c3wagent] 0).2.2.2.1 ⟨"gs://other", "y"⟩
     (by decide)⟩
